import Mathlib

/- Verification of the Server-Client-Game repository: a shallow embedding of
the discovery registry server (discovery.py) and the room server (room.py),
with proofs about their message handling.  Python strings are modelled as
lists of characters and Python exceptions by an explicit error type. -/

namespace SCG

/-- Characters of a Python string. -/
abbrev Chars := List Char

/-- Python runtime errors relevant to the embedded code: IndexError from
list/sequence indexing, ValueError from int() and list.remove(). -/
inductive PErr where
  | index
  | value
deriving DecidableEq, Repr

instance {ε α : Type} [DecidableEq ε] [DecidableEq α] :
    DecidableEq (Except ε α) := fun a b =>
  match a, b with
  | .ok x, .ok y =>
    if h : x = y then .isTrue (by rw [h]) else
      .isFalse (fun hh => h (Except.ok.inj hh))
  | .error x, .error y =>
    if h : x = y then .isTrue (by rw [h]) else
      .isFalse (fun hh => h (Except.error.inj hh))
  | .ok _, .error _ => .isFalse (fun hh => Except.noConfusion hh)
  | .error _, .ok _ => .isFalse (fun hh => Except.noConfusion hh)

/-- Python str.split(sep) for a single-character separator given by a
predicate: splits at every separator occurrence and keeps empty pieces. -/
def splitOnP (p : Char → Bool) : Chars → List Chars
  | [] => [[]]
  | c :: rest =>
    match splitOnP p rest with
    | [] => [[]]
    | t :: ts => if p c then [] :: t :: ts else (c :: t) :: ts

/-- Python s.split(sep) for a one-character separator sep. -/
def splitOnC (sep : Char) : Chars → List Chars :=
  splitOnP (fun c => c == sep)

theorem splitOnP_ne_nil (p : Char → Bool) (l : Chars) : splitOnP p l ≠ [] := by
  cases l with
  | nil => simp [splitOnP]
  | cons c rest =>
    simp only [splitOnP]
    rcases h : splitOnP p rest with _ | ⟨t, ts⟩
    · simp
    · by_cases hc : p c <;> simp [hc]

theorem splitOnP_append (p : Char → Bool) (x l : Chars)
    (hx : ∀ c ∈ x, p c = false) :
    splitOnP p (x ++ l) =
      (x ++ (splitOnP p l).headD []) :: (splitOnP p l).tail := by
  induction x with
  | nil =>
    rcases h : splitOnP p l with _ | ⟨t, ts⟩
    · exact absurd h (splitOnP_ne_nil p l)
    · simp [h]
  | cons a x' ih =>
    have ha : p a = false := hx a (by simp)
    have hx' : ∀ c ∈ x', p c = false := fun c hc => hx c (by simp [hc])
    simp only [List.cons_append, splitOnP, List.append_eq, ih hx', ha]
    simp

theorem splitOnP_cons_sep (p : Char → Bool) (c : Char) (l : Chars)
    (hc : p c = true) : splitOnP p (c :: l) = [] :: splitOnP p l := by
  simp only [splitOnP]
  rcases h : splitOnP p l with _ | ⟨t, ts⟩
  · exact absurd h (splitOnP_ne_nil p l)
  · simp [hc]

theorem splitOnP_tok (p : Char → Bool) (x : Chars) (c : Char) (l : Chars)
    (hx : ∀ a ∈ x, p a = false) (hc : p c = true) :
    splitOnP p (x ++ c :: l) = x :: splitOnP p l := by
  rw [splitOnP_append p x _ hx, splitOnP_cons_sep p c l hc]
  simp

theorem splitOnP_all_false (p : Char → Bool) (x : Chars)
    (hx : ∀ c ∈ x, p c = false) : splitOnP p x = [x] := by
  have h := splitOnP_append p x [] hx
  simpa [splitOnP] using h

/-- Boolean test that `pat` is a leading segment of `s`. -/
def prefixB : Chars → Chars → Bool
  | [], _ => true
  | _ :: _, [] => false
  | a :: l, b :: s => a == b && prefixB l s

theorem cons_pre_cons (a b : Char) (l s : Chars) :
    (a :: l <+: b :: s) ↔ a = b ∧ l <+: s := by
  constructor
  · rintro ⟨t, ht⟩
    injection ht with h1 h2
    exact ⟨h1, t, h2⟩
  · rintro ⟨rfl, t, ht⟩
    exact ⟨t, by rw [List.cons_append, ht]⟩

theorem prefixB_iff (pat s : Chars) : prefixB pat s = true ↔ pat <+: s := by
  induction pat generalizing s with
  | nil => simpa [prefixB] using ⟨s, rfl⟩
  | cons a l ih =>
    cases s with
    | nil =>
      simp only [prefixB, Bool.false_eq_true, false_iff]
      rintro ⟨t, ht⟩
      simp at ht
    | cons b t =>
      simp [prefixB, cons_pre_cons, ih, Bool.and_eq_true, beq_iff_eq]

/-- Python s.find(pat) != -1, i.e. pat occurs somewhere inside s. -/
def containsB (pat : Chars) : Chars → Bool
  | [] => prefixB pat []
  | c :: rest => prefixB pat (c :: rest) || containsB pat rest

theorem pre_inf {l s : Chars} (h : l <+: s) : l <:+: s := by
  obtain ⟨t, ht⟩ := h
  exact ⟨[], t, by simpa using ht⟩

theorem inf_nil (l : Chars) : l <:+: ([] : Chars) ↔ l = [] := by
  constructor
  · rintro ⟨x, y, hxy⟩
    rcases List.append_eq_nil.1 hxy with ⟨h1, h2⟩
    exact (List.append_eq_nil.1 h1).2
  · rintro rfl
    exact ⟨[], [], rfl⟩

theorem inf_cons (l : Chars) (a : Char) (s : Chars) :
    l <:+: a :: s ↔ (l <+: a :: s) ∨ l <:+: s := by
  constructor
  · rintro ⟨x, y, hxy⟩
    cases x with
    | nil =>
      left
      exact ⟨y, by simpa using hxy⟩
    | cons c x' =>
      right
      injection hxy with h1 h2
      exact ⟨x', y, h2⟩
  · rintro (⟨t, ht⟩ | ⟨x, y, hxy⟩)
    · exact ⟨[], t, by simpa using ht⟩
    · exact ⟨a :: x, y, by rw [← hxy]; simp⟩

theorem inf_len {l s : Chars} (h : l <:+: s) : l.length ≤ s.length := by
  obtain ⟨x, y, hxy⟩ := h
  subst hxy
  simp
  omega

theorem containsB_iff (pat s : Chars) : containsB pat s = true ↔ pat <:+: s := by
  induction s with
  | nil =>
    simp only [containsB, prefixB_iff, inf_nil]
    constructor
    · rintro ⟨t, ht⟩
      exact (List.append_eq_nil.1 ht).1
    · rintro rfl
      exact ⟨[], rfl⟩
  | cons c rest ih =>
    simp [containsB, Bool.or_eq_true, prefixB_iff, ih, inf_cons]

theorem containsB_false (pat s : Chars) (h : ¬ pat <:+: s) :
    containsB pat s = false := by
  rw [← Bool.not_eq_true, containsB_iff]
  exact h

theorem containsB_of_pre (pat s : Chars) (h : pat <+: s) :
    containsB pat s = true := (containsB_iff pat s).2 (pre_inf h)

/-- An occurrence of `l` whose head letter never appears in `x` lies in `y`. -/
theorem inf_app_right (l x y : Chars) (hl : l ≠ ([] : Chars))
    (hx : l.head hl ∉ x) : l <:+: x ++ y → l <:+: y := by
  induction x with
  | nil => simpa using id
  | cons a x' ih =>
    intro h
    rw [List.cons_append] at h
    rcases (inf_cons l a (x' ++ y)).1 h with hpre | hinf
    · obtain ⟨hd, tl, rfl⟩ : ∃ hd tl, l = hd :: tl := by
        cases l with
        | nil => exact absurd rfl hl
        | cons hd tl => exact ⟨hd, tl, rfl⟩
      rcases (cons_pre_cons hd a tl (x' ++ y)).1 hpre with ⟨rfl, -⟩
      exact absurd (by simp) hx
    · exact ih (fun hm => hx (by simp [hm])) hinf

theorem pre_split (l x y : Chars) (c : Char) (hc : c ∉ l) :
    l <+: x ++ c :: y → l <+: x := by
  induction l generalizing x with
  | nil => intro _; exact ⟨x, rfl⟩
  | cons b l' ih =>
    intro h
    cases x with
    | nil =>
      rcases (cons_pre_cons b c l' y).1 (by simpa using h) with ⟨rfl, -⟩
      exact absurd (by simp) hc
    | cons a x' =>
      rcases (cons_pre_cons b a l' (x' ++ c :: y)).1 (by simpa using h) with
        ⟨rfl, hp⟩
      have := ih x' (fun hm => hc (List.mem_cons_of_mem _ hm)) hp
      exact (cons_pre_cons b b l' x').2 ⟨rfl, this⟩

theorem inf_split (l x y : Chars) (c : Char) (hc : c ∉ l) :
    l <:+: x ++ c :: y → l <:+: x ∨ l <:+: y := by
  induction x with
  | nil =>
    intro h
    rcases (inf_cons l c y).1 (by simpa using h) with hpre | hinf
    · cases l with
      | nil => exact Or.inl ⟨[], [], rfl⟩
      | cons b l' =>
        rcases (cons_pre_cons b c l' y).1 hpre with ⟨rfl, -⟩
        exact absurd (by simp) hc
    · exact Or.inr hinf
  | cons a x' ih =>
    intro h
    rw [List.cons_append] at h
    rcases (inf_cons l a (x' ++ c :: y)).1 h with hpre | hinf
    · have := pre_split l (a :: x') y c hc (by simpa using hpre)
      exact Or.inl (pre_inf this)
    · rcases ih hinf with h1 | h2
      · exact Or.inl ((inf_cons l a x').2 (Or.inr h1))
      · exact Or.inr h2

/-- Python s.lstrip(set). -/
def lstrip (p : Char → Bool) (l : Chars) : Chars := l.dropWhile p

/-- Python s.rstrip(set). -/
def rstrip (p : Char → Bool) (l : Chars) : Chars :=
  (l.reverse.dropWhile p).reverse

/-- Python s.strip(set): drop the given characters from both ends. -/
def pystrip (p : Char → Bool) (l : Chars) : Chars := rstrip p (lstrip p l)

/-- The character set of Python str.strip() with no argument (whitespace). -/
def wsB (c : Char) : Bool := c == ' ' || c == '\t' || c == '\n' || c == '\x0d'

/-- The character set of Python str.strip("()"). -/
def parenB (c : Char) : Bool := c == '(' || c == ')'

def isDigitB (c : Char) : Bool := decide (48 ≤ c.toNat ∧ c.toNat ≤ 57)

def digitVal (c : Char) : Nat := c.toNat - 48

theorem dropWhile_all_false (p : Char → Bool) (l : Chars)
    (h : ∀ c ∈ l, p c = false) : l.dropWhile p = l := by
  cases l with
  | nil => rfl
  | cons a t => simp [List.dropWhile_cons, h a (by simp)]

theorem lstrip_all_false (p : Char → Bool) (l : Chars)
    (h : ∀ c ∈ l, p c = false) : lstrip p l = l :=
  dropWhile_all_false p l h

theorem rstrip_all_false (p : Char → Bool) (l : Chars)
    (h : ∀ c ∈ l, p c = false) : rstrip p l = l := by
  unfold rstrip
  rw [dropWhile_all_false p _ (fun c hc => h c (List.mem_reverse.1 hc)),
    List.reverse_reverse]

theorem pystrip_all_false (p : Char → Bool) (l : Chars)
    (h : ∀ c ∈ l, p c = false) : pystrip p l = l := by
  unfold pystrip
  rw [lstrip_all_false p l h, rstrip_all_false p l h]

theorem rstrip_append_sat (p : Char → Bool) (l : Chars) (c : Char)
    (hc : p c = true) : rstrip p (l ++ [c]) = rstrip p l := by
  unfold rstrip
  simp [List.dropWhile_cons, hc]

theorem lstrip_cons_sat (p : Char → Bool) (c : Char) (l : Chars)
    (hc : p c = true) : lstrip p (c :: l) = lstrip p l := by
  simp [lstrip, List.dropWhile_cons, hc]

theorem lstrip_cons_unsat (p : Char → Bool) (c : Char) (l : Chars)
    (hc : p c = false) : lstrip p (c :: l) = c :: l := by
  simp [lstrip, List.dropWhile_cons, hc]

/-- Python int(s): strips whitespace, then requires a nonempty digit string.
A non-numeric argument raises ValueError. -/
def pyIntE (l : Chars) : Except PErr Nat :=
  let t := pystrip wsB l
  if !t.isEmpty && t.all isDigitB then
    .ok (t.foldl (fun a c => 10 * a + digitVal c) 0)
  else
    .error .value

/-- Numeric value of a digit string (the foldl used by pyIntE). -/
def pv (l : Chars) : Nat := l.foldl (fun a c => 10 * a + digitVal c) 0

/-- Decimal digit characters, as rendered by Python str() of an int. -/
def dCh : Nat → Char
  | 0 => '0' | 1 => '1' | 2 => '2' | 3 => '3' | 4 => '4'
  | 5 => '5' | 6 => '6' | 7 => '7' | 8 => '8' | _ => '9'

/-- Fuel-bounded decimal rendering of a natural number. -/
def portStrAux : Nat → Nat → Chars
  | 0, _ => []
  | _ + 1, 0 => []
  | fuel + 1, n + 1 =>
    portStrAux fuel ((n + 1) / 10) ++ [dCh ((n + 1) % 10)]

/-- Python str(p) for a positive int p (decimal digits). -/
def portStr (p : Nat) : Chars := portStrAux p p

theorem isDigitB_not_ws (c : Char) (h : isDigitB c = true) : wsB c = false := by
  simp only [isDigitB, decide_eq_true_eq] at h
  simp only [wsB, Bool.or_eq_false_iff, beq_eq_false_iff_ne]
  refine ⟨⟨⟨?_, ?_⟩, ?_⟩, ?_⟩ <;>
    · rintro rfl
      revert h
      decide

theorem isDigitB_not_paren (c : Char) (h : isDigitB c = true) :
    parenB c = false := by
  simp only [isDigitB, decide_eq_true_eq] at h
  simp only [parenB, Bool.or_eq_false_iff, beq_eq_false_iff_ne]
  refine ⟨?_, ?_⟩ <;>
    · rintro rfl
      revert h
      decide

theorem isDigitB_ne (c d : Char) (h : isDigitB c = true)
    (hd : isDigitB d = false) : c ≠ d := by
  rintro rfl
  rw [h] at hd
  cases hd

theorem dCh_digit (d : Nat) (hd : d < 10) : isDigitB (dCh d) = true := by
  interval_cases d <;> decide

theorem dCh_val (d : Nat) (hd : d < 10) : digitVal (dCh d) = d := by
  interval_cases d <;> decide

theorem portStrAux_digits (fuel : Nat) :
    ∀ n, ∀ c ∈ portStrAux fuel n, isDigitB c = true := by
  induction fuel with
  | zero => intro n c hc; simp [portStrAux] at hc
  | succ f ih =>
    intro n c hc
    cases n with
    | zero => simp [portStrAux] at hc
    | succ m =>
      simp only [portStrAux, List.mem_append, List.mem_singleton] at hc
      rcases hc with hc | rfl
      · exact ih _ c hc
      · exact dCh_digit _ (Nat.mod_lt _ (by norm_num))

theorem portStr_digits (p : Nat) : ∀ c ∈ portStr p, isDigitB c = true :=
  portStrAux_digits p p

theorem portStr_ne_nil (p : Nat) (hp : 0 < p) : portStr p ≠ [] := by
  unfold portStr
  cases p with
  | zero => omega
  | succ m => simp [portStrAux]

theorem pv_portStrAux (fuel : Nat) :
    ∀ n, n ≤ fuel → pv (portStrAux fuel n) = n := by
  induction fuel with
  | zero => intro n hn; interval_cases n; rfl
  | succ f ih =>
    intro n hn
    cases n with
    | zero => rfl
    | succ m =>
      have hdiv : (m + 1) / 10 ≤ f := by
        have := Nat.div_lt_self (Nat.succ_pos m) (by norm_num : 1 < 10)
        omega
      have hmod : (m + 1) % 10 < 10 := Nat.mod_lt _ (by norm_num)
      simp only [portStrAux, pv, List.foldl_append, List.foldl_cons,
        List.foldl_nil]
      have hpv := ih ((m + 1) / 10) hdiv
      rw [pv] at hpv
      rw [hpv, dCh_val _ hmod]
      omega

theorem pv_portStr (p : Nat) : pv (portStr p) = p := pv_portStrAux p p le_rfl

theorem pyIntE_digits (l : Chars) (h : ∀ c ∈ l, isDigitB c = true)
    (hne : l ≠ []) : pyIntE l = .ok (pv l) := by
  unfold pyIntE
  rw [pystrip_all_false wsB l (fun c hc => isDigitB_not_ws c (h c hc))]
  have h1 : l.isEmpty = false := by
    cases l with
    | nil => exact absurd rfl hne
    | cons a t => rfl
  have h2 : l.all isDigitB = true := List.all_eq_true.2 h
  simp [h1, h2, pv]

theorem pyIntE_ws_cons (l : Chars) : pyIntE (' ' :: l) = pyIntE l := by
  unfold pyIntE pystrip
  rw [lstrip_cons_sat wsB ' ' l (by decide)]

/-- Stripping "()" from the port piece " <digits>)" leaves " <digits>". -/
theorem pystrip_paren_port (p : Nat) (hp : 0 < p) :
    pystrip parenB (' ' :: portStr p ++ [')']) = ' ' :: portStr p := by
  unfold pystrip
  rw [List.cons_append, lstrip_cons_unsat parenB ' ' _ (by decide),
    ← List.cons_append, rstrip_append_sat parenB _ ')' (by decide)]
  refine rstrip_all_false parenB _ ?_
  intro c hc
  rcases List.mem_cons.1 hc with rfl | hc
  · decide
  · exact isDigitB_not_paren c (portStr_digits p c hc)

theorem pyIntE_port_piece (p : Nat) (hp : 0 < p) :
    pyIntE (pystrip parenB (' ' :: portStr p ++ [')'])) = .ok p := by
  rw [pystrip_paren_port p hp, pyIntE_ws_cons,
    pyIntE_digits _ (portStr_digits p) (portStr_ne_nil p hp), pv_portStr]

theorem pystrip_ws_port (p : Nat) :
    pystrip wsB (' ' :: portStr p) = portStr p := by
  unfold pystrip
  rw [lstrip_cons_sat wsB ' ' _ (by decide),
    lstrip_all_false wsB _ (fun c hc => isDigitB_not_ws c (portStr_digits p c hc)),
    rstrip_all_false wsB _ (fun c hc => isDigitB_not_ws c (portStr_digits p c hc))]

theorem pyIntE_port_piece_ws (p : Nat) (hp : 0 < p) :
    pyIntE (pystrip wsB (pystrip parenB (' ' :: portStr p ++ [')']))) =
      .ok p := by
  rw [pystrip_paren_port p hp, pystrip_ws_port,
    pyIntE_digits _ (portStr_digits p) (portStr_ne_nil p hp), pv_portStr]

theorem containsB_false_iff (pat s : Chars) :
    containsB pat s = false ↔ ¬ pat <:+: s :=
  Bool.eq_false_iff.trans (not_congr (containsB_iff pat s))

theorem noSpace_pred {t : Chars} (h : ' ' ∉ t) :
    ∀ c ∈ t, (c == ' ') = false := by
  intro c hc
  rw [beq_eq_false_iff_ne]
  rintro rfl
  exact h hc

/- ----------------------------------------------------------------
The Discovery Service (discovery.py).  Its while-loop body dispatches on
substring tests of the received datagram, parses with str.split(' '), and
mutates the global dict server_map; discoveryStep maps the dict and one
datagram to the new dict and the optional reply datagram. -/

namespace Discovery

def OPERATION_SUCCESS : Chars := "OK".data
def OPERATION_FAILURE : Chars := "NOTOK".data

/-- The global dict server_map, as an association list with unique keys
(Python dict keys are unique, so pop removes the one matching entry). -/
abbrev RegMap := List (Chars × Chars)

def mapGet : RegMap → Chars → Option Chars
  | [], _ => none
  | e :: rest, key => if key = e.1 then some e.2 else mapGet rest key

def mapInsert : RegMap → Chars → Chars → RegMap
  | [], key, val => [(key, val)]
  | e :: rest, key, val =>
    if key = e.1 then (key, val) :: rest else e :: mapInsert rest key val

def mapRemove (m : RegMap) (key : Chars) : RegMap :=
  m.filter (fun e => !(e.1 == key))

/-- The `find("DEREGISTER") != -1` branch: pop parsed_message[1]; KeyError
and IndexError both answer NOTOK. -/
def deregBranch (m : RegMap) (msg : Chars) : RegMap × Option Chars :=
  match (splitOnC ' ' msg)[1]? with
  | none => (m, some OPERATION_FAILURE)
  | some nm =>
    match mapGet m nm with
    | some _ => (mapRemove m nm, some OPERATION_SUCCESS)
    | none => (m, some OPERATION_FAILURE)

/-- The `find("REGISTER") != -1` branch: server_map[parsed[2]] = parsed[1];
IndexError (missing token) answers NOTOK before any mutation. -/
def regBranch (m : RegMap) (msg : Chars) : RegMap × Option Chars :=
  match (splitOnC ' ' msg)[1]?, (splitOnC ' ' msg)[2]? with
  | some addr, some nm => (mapInsert m nm addr, some OPERATION_SUCCESS)
  | _, _ => (m, some OPERATION_FAILURE)

/-- The `find("LOOKUP") != -1` branch: reply with server_map[parsed[1]],
KeyError/IndexError answer NOTOK. -/
def lookupBranch (m : RegMap) (msg : Chars) : RegMap × Option Chars :=
  match (splitOnC ' ' msg)[1]? with
  | none => (m, some OPERATION_FAILURE)
  | some nm =>
    match mapGet m nm with
    | some addr => (m, some addr)
    | none => (m, some OPERATION_FAILURE)

/-- One iteration of discovery.py's while-loop on a received datagram:
the if/elif chain tests substring containment, in source order. -/
def discoveryStep (m : RegMap) (msg : Chars) : RegMap × Option Chars :=
  if containsB "DEREGISTER".data msg then deregBranch m msg
  else if containsB "REGISTER".data msg then regBranch m msg
  else if containsB "LOOKUP".data msg then lookupBranch m msg
  else (m, none)

/-- Abstract registry requests, and their wire encoding per the protocol. -/
inductive DReq where
  | reg (addr nm : Chars)
  | dereg (nm : Chars)
  | lookup (nm : Chars)
deriving DecidableEq, Repr

def encodeD : DReq → Chars
  | .reg a n => "REGISTER".data ++ ' ' :: (a ++ ' ' :: n)
  | .dereg n => "DEREGISTER".data ++ ' ' :: n
  | .lookup n => "LOOKUP".data ++ ' ' :: n

/-- A benign protocol token: no space, and no occurrence of the dispatch
substrings REGISTER (hence DEREGISTER) or LOOKUP. -/
def goodTok (t : Chars) : Prop :=
  ' ' ∉ t ∧ containsB "REGISTER".data t = false ∧
    containsB "LOOKUP".data t = false

def goodReq : DReq → Prop
  | .reg a nm => goodTok a ∧ goodTok nm
  | .dereg nm => goodTok nm
  | .lookup nm => goodTok nm

instance : DecidablePred goodTok := fun t => by
  unfold goodTok
  infer_instance

instance : DecidablePred goodReq := fun r => by
  cases r <;> (unfold goodReq; infer_instance)

/-- Running the service from a store over a list of datagrams. -/
def runD (m : RegMap) (msgs : List Chars) : RegMap :=
  msgs.foldl (fun mm msg => (discoveryStep mm msg).1) m

/-- Modelled from the spec's words (§8): the address a LOOKUP of `n` must
see after a request history — the most recent REGISTER of `n`, unless a
later DEREGISTER of `n` removed it. -/
def specStep (n : Chars) (acc : Option Chars) : DReq → Option Chars
  | .reg a nm => if nm = n then some a else acc
  | .dereg nm => if nm = n then none else acc
  | .lookup _ => acc

def specLookupFrom (init : Option Chars) (ops : List DReq) (n : Chars) :
    Option Chars :=
  ops.foldl (specStep n) init

def specLookup (ops : List DReq) (n : Chars) : Option Chars :=
  specLookupFrom none ops n

theorem mapGet_insert_self (m : RegMap) (k v : Chars) :
    mapGet (mapInsert m k v) k = some v := by
  induction m with
  | nil => simp [mapInsert, mapGet]
  | cons e rest ih =>
    by_cases h : k = e.1 <;> simp [mapInsert, mapGet, h, ih]

theorem mapGet_insert_ne (m : RegMap) (k v k' : Chars) (h : k' ≠ k) :
    mapGet (mapInsert m k v) k' = mapGet m k' := by
  induction m with
  | nil => simp [mapInsert, mapGet, h]
  | cons e rest ih =>
    by_cases h2 : k = e.1
    · subst h2
      simp [mapInsert, mapGet, h, ih]
    · by_cases h3 : k' = e.1 <;> simp [mapInsert, mapGet, h2, h3, ih]

theorem mapGet_remove_self (m : RegMap) (k : Chars) :
    mapGet (mapRemove m k) k = none := by
  induction m with
  | nil => rfl
  | cons e rest ih =>
    by_cases h : e.1 = k
    · simpa [mapRemove, List.filter_cons, h] using ih
    · have : k ≠ e.1 := fun hh => h hh.symm
      simpa [mapRemove, List.filter_cons, h, mapGet, this] using ih

theorem mapGet_remove_ne (m : RegMap) (k k' : Chars) (h : k' ≠ k) :
    mapGet (mapRemove m k) k' = mapGet m k' := by
  induction m with
  | nil => rfl
  | cons e rest ih =>
    by_cases h2 : e.1 = k
    · have : k' ≠ e.1 := fun hh => h (hh.trans h2)
      simpa [mapRemove, List.filter_cons, h2, mapGet, this, h] using ih
    · by_cases h3 : k' = e.1
      · simp [mapRemove, List.filter_cons, h2, mapGet, h3]
      · simpa [mapRemove, List.filter_cons, h2, mapGet, h3] using ih

theorem split_reg (a n : Chars) (ha : ' ' ∉ a) (hn : ' ' ∉ n) :
    splitOnC ' ' (encodeD (.reg a n)) = ["REGISTER".data, a, n] := by
  show splitOnP (fun c => c == ' ')
    ("REGISTER".data ++ ' ' :: (a ++ ' ' :: n)) = ["REGISTER".data, a, n]
  rw [splitOnP_tok _ "REGISTER".data ' ' _ (by decide) (by decide),
    splitOnP_tok _ a ' ' n (noSpace_pred ha) (by decide),
    splitOnP_all_false _ n (noSpace_pred hn)]

theorem split_one_tok (verb : Chars) (hverb : ∀ c ∈ verb, (c == ' ') = false)
    (n : Chars) (hn : ' ' ∉ n) :
    splitOnC ' ' (verb ++ ' ' :: n) = [verb, n] := by
  show splitOnP (fun c => c == ' ') (verb ++ ' ' :: n) = [verb, n]
  rw [splitOnP_tok _ verb ' ' _ hverb (by decide),
    splitOnP_all_false _ n (noSpace_pred hn)]

theorem reg_infix_trans {t : Chars}
    (h : "DEREGISTER".data <:+: t) : "REGISTER".data <:+: t :=
  List.IsInfix.trans ((containsB_iff _ _).1 (by decide)) h

theorem not_dereg_reg (a n : Chars) (ha : goodTok a) (hn : goodTok n) :
    containsB "DEREGISTER".data (encodeD (.reg a n)) = false := by
  rw [containsB_false_iff]
  intro h
  have h2 : "DEREGISTER".data <:+: ' ' :: (a ++ ' ' :: n) :=
    inf_app_right "DEREGISTER".data "REGISTER".data _ (by decide)
      (by decide) h
  rcases inf_split "DEREGISTER".data ([] : Chars) _ ' ' (by decide)
      (by simpa using h2) with h3 | h3
  · exact absurd ((inf_nil _).1 h3) (by decide)
  · rcases inf_split "DEREGISTER".data a n ' ' (by decide) h3 with h4 | h4
    · exact absurd (reg_infix_trans h4) ((containsB_false_iff _ _).1 ha.2.1)
    · exact absurd (reg_infix_trans h4) ((containsB_false_iff _ _).1 hn.2.1)

theorem not_dereg_lookup (n : Chars) (hn : goodTok n) :
    containsB "DEREGISTER".data (encodeD (.lookup n)) = false := by
  rw [containsB_false_iff]
  intro h
  have h2 : "DEREGISTER".data <:+: ' ' :: n :=
    inf_app_right "DEREGISTER".data "LOOKUP".data _ (by decide)
      (by decide) h
  rcases inf_split "DEREGISTER".data ([] : Chars) _ ' ' (by decide)
      (by simpa using h2) with h3 | h3
  · exact absurd ((inf_nil _).1 h3) (by decide)
  · exact absurd (reg_infix_trans h3) ((containsB_false_iff _ _).1 hn.2.1)

theorem not_reg_lookup (n : Chars) (hn : goodTok n) :
    containsB "REGISTER".data (encodeD (.lookup n)) = false := by
  rw [containsB_false_iff]
  intro h
  have h2 : "REGISTER".data <:+: ' ' :: n :=
    inf_app_right "REGISTER".data "LOOKUP".data _ (by decide)
      (by decide) h
  rcases inf_split "REGISTER".data ([] : Chars) _ ' ' (by decide)
      (by simpa using h2) with h3 | h3
  · exact absurd ((inf_nil _).1 h3) (by decide)
  · exact absurd h3 ((containsB_false_iff _ _).1 hn.2.1)

theorem disc_dispatch_reg (m : RegMap) (a n : Chars) (ha : goodTok a)
    (hn : goodTok n) :
    discoveryStep m (encodeD (.reg a n)) =
      (mapInsert m n a, some OPERATION_SUCCESS) := by
  have hreg : containsB "REGISTER".data (encodeD (.reg a n)) = true :=
    containsB_of_pre _ _ ⟨' ' :: (a ++ ' ' :: n), rfl⟩
  unfold discoveryStep
  rw [not_dereg_reg a n ha hn, hreg]
  simp [regBranch, split_reg a n ha.1 hn.1]

theorem disc_dispatch_dereg (m : RegMap) (n : Chars) (hn : goodTok n) :
    discoveryStep m (encodeD (.dereg n)) =
      deregBranch m (encodeD (.dereg n)) ∧
    (splitOnC ' ' (encodeD (.dereg n)))[1]? = some n := by
  constructor
  · have hder : containsB "DEREGISTER".data (encodeD (.dereg n)) = true :=
      containsB_of_pre _ _ ⟨' ' :: n, rfl⟩
    unfold discoveryStep
    rw [hder]
    simp
  · rw [show encodeD (.dereg n) = "DEREGISTER".data ++ ' ' :: n from rfl,
      split_one_tok "DEREGISTER".data (by decide) n hn.1]
    rfl

theorem disc_dereg_found (m : RegMap) (n v : Chars) (hn : goodTok n)
    (hv : mapGet m n = some v) :
    discoveryStep m (encodeD (.dereg n)) =
      (mapRemove m n, some OPERATION_SUCCESS) := by
  obtain ⟨h1, h2⟩ := disc_dispatch_dereg m n hn
  rw [h1]
  unfold deregBranch
  rw [h2]
  simp [hv]

theorem disc_dereg_missing (m : RegMap) (n : Chars) (hn : goodTok n)
    (hv : mapGet m n = none) :
    discoveryStep m (encodeD (.dereg n)) =
      (m, some OPERATION_FAILURE) := by
  obtain ⟨h1, h2⟩ := disc_dispatch_dereg m n hn
  rw [h1]
  unfold deregBranch
  rw [h2]
  simp [hv]

theorem disc_dispatch_lookup (m : RegMap) (n : Chars) (hn : goodTok n) :
    discoveryStep m (encodeD (.lookup n)) =
      (m, some ((mapGet m n).getD OPERATION_FAILURE)) := by
  have hlo : containsB "LOOKUP".data (encodeD (.lookup n)) = true :=
    containsB_of_pre _ _ ⟨' ' :: n, rfl⟩
  unfold discoveryStep
  rw [not_dereg_lookup n hn, not_reg_lookup n hn, hlo]
  simp only [Bool.false_eq_true, if_false, if_true]
  unfold lookupBranch
  rw [show encodeD (.lookup n) = "LOOKUP".data ++ ' ' :: n from rfl,
    split_one_tok "LOOKUP".data (by decide) n hn.1]
  cases hv : mapGet m n <;> simp [hv]

theorem runD_spec (ops : List DReq) : ∀ (m : RegMap) (n : Chars),
    (∀ r ∈ ops, goodReq r) → goodTok n →
    mapGet (runD m (ops.map encodeD)) n =
      specLookupFrom (mapGet m n) ops n := by
  induction ops with
  | nil => intro m n _ _; rfl
  | cons r ops' ih =>
    intro m n hall hn
    have hr : goodReq r := hall r (by simp)
    have hall' : ∀ x ∈ ops', goodReq x := fun x hx => hall x (by simp [hx])
    show mapGet (runD (discoveryStep m (encodeD r)).1 (ops'.map encodeD)) n = _
    rw [ih _ n hall' hn]
    show _ = specLookupFrom (specStep n (mapGet m n) r) ops' n
    congr 1
    cases r with
    | reg a nm =>
      obtain ⟨ha, hnm⟩ := hr
      rw [disc_dispatch_reg m a nm ha hnm]
      by_cases h : nm = n
      · subst h
        simp [specStep, mapGet_insert_self]
      · simp [specStep, h, mapGet_insert_ne m nm a n (fun hh => h hh.symm)]
    | dereg nm =>
      cases hv : mapGet m nm with
      | some v =>
        rw [disc_dereg_found m nm v hr hv]
        by_cases h : nm = n
        · subst h
          simp [specStep, mapGet_remove_self]
        · simp [specStep, h, mapGet_remove_ne m nm n (fun hh => h hh.symm)]
      | none =>
        rw [disc_dereg_missing m nm hr hv]
        by_cases h : nm = n
        · subst h
          simp [specStep, hv]
        · simp [specStep, h]
    | lookup nm =>
      rw [disc_dispatch_lookup m nm hr]
      rfl

end Discovery

/-- C1: for every sequence of well-formed REGISTER/LOOKUP/DEREGISTER
requests, a LOOKUP of a name is answered with the address of the most
recent REGISTER of that name (re-registration silently overwrites,
last write wins), and with NOTOK if the name was never registered or its
most recent REGISTER was followed by a DEREGISTER. -/
theorem discovery_registry_lookup (ops : List Discovery.DReq) (n : Chars)
    (h1 : ∀ r ∈ ops, Discovery.goodReq r) (h2 : Discovery.goodTok n) :
    Discovery.mapGet (Discovery.runD [] (ops.map Discovery.encodeD)) n =
      Discovery.specLookup ops n ∧
    (Discovery.discoveryStep (Discovery.runD [] (ops.map Discovery.encodeD))
        (Discovery.encodeD (.lookup n))).2 =
      some ((Discovery.specLookup ops n).getD
        Discovery.OPERATION_FAILURE) := by
  have hmain := Discovery.runD_spec ops [] n h1 h2
  refine ⟨hmain, ?_⟩
  rw [Discovery.disc_dispatch_lookup _ n h2, hmain]
  rfl

theorem discovery_registry_lookup_witness :
    Discovery.mapGet (Discovery.runD []
      ([Discovery.DReq.reg "A".data "room1".data,
        Discovery.DReq.reg "B".data "room1".data].map Discovery.encodeD))
      "room1".data = some "B".data :=
  (discovery_registry_lookup
    [Discovery.DReq.reg "A".data "room1".data,
     Discovery.DReq.reg "B".data "room1".data]
    "room1".data (by decide) (by decide)).1.trans (by decide)

/-- C10: the Discovery Service dispatches by substring search anywhere in
the datagram: any message containing DEREGISTER anywhere is processed by
the deregistration branch, and the LOOKUP request for the name
"a REGISTERx" (a name containing REGISTER) is processed as a REGISTER,
mutating the registry store and replying OK instead of answering the
query. -/
theorem discovery_substring_dispatch :
    (∀ (m : Discovery.RegMap) (msg : Chars),
      containsB "DEREGISTER".data msg = true →
      Discovery.discoveryStep m msg = Discovery.deregBranch m msg) ∧
    (containsB "REGISTER".data "a REGISTERx".data = true ∧
      Discovery.discoveryStep [] ("LOOKUP ".data ++ "a REGISTERx".data) =
        ([("REGISTERx".data, "a".data)],
          some Discovery.OPERATION_SUCCESS)) := by
  refine ⟨?_, by decide, by decide⟩
  intro m msg h
  unfold Discovery.discoveryStep
  rw [h]
  simp

theorem discovery_substring_dispatch_witness :
    Discovery.discoveryStep [] "helloDEREGISTER q".data =
      Discovery.deregBranch [] "helloDEREGISTER q".data :=
  discovery_substring_dispatch.1 [] "helloDEREGISTER q".data (by decide)

/- ----------------------------------------------------------------
The Room Server (room.py).  Its while-loop body dispatches on substring
or equality tests of the received datagram.  Roster entries are the
strings str(client_address) + "-" + name, re-parsed with split/strip/int
on each use; the embedding mirrors those operations and the placement of
try/except blocks (a ValueError is caught where the source catches it, an
IndexError escapes and aborts the loop iteration). -/

namespace RoomSrv

def OPERATION_SUCCESS : Chars := "operation_success".data
def OPERATION_FAILURE : Chars := "operation_failure".data

/-- A client endpoint as delivered by recvfrom: (host string, port). -/
abbrev Addr := Chars × Nat

/-- An outgoing datagram: destination address and payload. -/
abbrev Out := Addr × Chars

/-- All roster notifications are sent to ("127.0.0.1", port). -/
def localhost : Chars := "127.0.0.1".data

/-- Python str((host, port)), i.e. "('host', port)". -/
def pyAddrStr (h : Chars) (p : Nat) : Chars :=
  ('(' :: '\'' :: h ++ ['\'']) ++ ',' :: (' ' :: portStr p ++ [')'])

/-- A roster entry: str(client_address) + "-" + name. -/
def mkPlayer (a : Addr) (n : Chars) : Chars := pyAddrStr a.1 a.2 ++ '-' :: n

/-- parsed_port = str(client_address).split(',')[1].strip('()').strip()
(the [1] piece always exists because str((host, port)) contains a comma). -/
def parsedPortStr (a : Addr) : Chars :=
  pystrip wsB (pystrip parenB ((splitOnC ',' (pyAddrStr a.1 a.2)).getD 1 []))

/-- The per-entry port parse of every roster loop:
int(player.split(',')[1].split('-')[0].strip('()')). -/
def entryPort (e : Chars) : Except PErr Nat :=
  match (splitOnC ',' e)[1]? with
  | none => .error .index
  | some a1 => pyIntE (pystrip parenB ((splitOnC '-' a1).headD []))

/-- Room.get_player_name_by_port: first entry whose parsed port matches
gives its name piece; otherwise "Player Not Found". -/
def get_player_name_by_port : List Chars → Nat → Except PErr Chars
  | [], _ => .ok "Player Not Found".data
  | e :: rest, sp =>
    match (splitOnC ',' e)[1]? with
    | none => .error .index
    | some a1 =>
      let pn := splitOnC '-' a1
      match pyIntE (pystrip wsB (pystrip parenB (pn.headD []))) with
      | .error er => .error er
      | .ok p =>
        if sp = p then
          match pn[1]? with
          | none => .error .index
          | some nm => .ok nm
        else get_player_name_by_port rest sp

/-- The broadcast loop of new_connection/say/move: iterate the roster,
skip entries whose parsed port equals the sender's, send the payload to
("127.0.0.1", port).  The payload computation runs inside the loop. -/
def fanout (spE : Except PErr Nat) (pay : Except PErr Chars) :
    List Chars → Except PErr (List Out)
  | [] => .ok []
  | e :: rest =>
    match spE with
    | .error er => .error er
    | .ok sp =>
      match entryPort e with
      | .error er => .error er
      | .ok p =>
        if sp = p then fanout spE pay rest
        else
          match pay with
          | .error er => .error er
          | .ok m =>
            match fanout spE pay rest with
            | .error er => .error er
            | .ok outs => .ok (((localhost, p), m) :: outs)

/-- The exit branch's loop.  Partial sends are kept because the enclosing
try catches ValueError after some datagrams have already been sent. -/
def exitFan (spE : Except PErr Nat) (pay : Except PErr Chars) :
    List Chars → List Out × Option PErr
  | [] => ([], none)
  | e :: rest =>
    match spE with
    | .error er => ([], some er)
    | .ok sp =>
      match entryPort e with
      | .error er => ([], some er)
      | .ok p =>
        if sp = p then exitFan spE pay rest
        else
          match pay with
          | .error er => ([], some er)
          | .ok m =>
            let r := exitFan spE pay rest
            (((localhost, p), m) :: r.1, r.2)

/-- Python list.remove: delete the first equal element. -/
def removeFirst : List Chars → Chars → List Chars
  | [], _ => []
  | a :: rest, x => if a = x then rest else a :: removeFirst rest x

/-- The Room class: name, desc, items, players (roster entry strings). -/
structure Room where
  name : Chars
  desc : Chars
  items : List Chars
  players : List Chars
deriving DecidableEq, Repr

/-- Room.remove_item: items.remove(item) caught ValueError gives False. -/
def Room.remove_item (r : Room) (item : Chars) : Bool × Room :=
  if item ∈ r.items then
    (true, ⟨r.name, r.desc, removeFirst r.items item, r.players⟩)
  else (false, r)

/-- Room.add_item: items.append(item). -/
def Room.add_item (r : Room) (item : Chars) : Room :=
  ⟨r.name, r.desc, r.items ++ [item], r.players⟩

/-- Room.__str__. -/
def roomStr (r : Room) : Chars :=
  r.name ++ "\n\n".data ++ r.desc ++ "\n\n".data ++
    "In this room, there are:\n".data ++
    (if r.items.isEmpty then "The room is empty.\n".data
     else (r.items.map (fun it => '\t' :: it ++ ['\n'])).flatten)

/-- The roster display of the look branch: one line per entry that does
not contain str(client_address). -/
def lookLines (sender : Addr) : List Chars → Except PErr Chars
  | [] => .ok []
  | e :: rest =>
    if containsB (pyAddrStr sender.1 sender.2) e then lookLines sender rest
    else
      match (splitOnC '-' e)[1]? with
      | none => .error .index
      | some nm =>
        match lookLines sender rest with
        | .error er => .error er
        | .ok s => .ok ('\t' :: nm ++ '\n' :: s)

/-- The neighbor table resolved once at startup (None = no exit). -/
structure Cfg where
  north : Option Chars
  east : Option Chars
  south : Option Chars
  west : Option Chars
  up : Option Chars
  down : Option Chars
deriving DecidableEq, Repr

inductive Direction where
  | north | east | south | west | up | down
deriving DecidableEq, Repr

def dirMsg : Direction → Chars
  | .north => "north".data
  | .east => "east".data
  | .south => "south".data
  | .west => "west".data
  | .up => "up".data
  | .down => "down".data

def cfgDir (c : Cfg) : Direction → Option Chars
  | .north => c.north
  | .east => c.east
  | .south => c.south
  | .west => c.west
  | .up => c.up
  | .down => c.down

def dirTxt : Direction → Chars
  | .north => " left the room, heading north.\n".data
  | .east => " left the room, heading east.\n".data
  | .south => " left the room, heading south.\n".data
  | .west => " left the room, heading west.\n".data
  | .up => " left the room, heading up.\n".data
  | .down => " left the room, heading down.\n".data

def optLine (o : Option Chars) (s : Chars) : Chars :=
  match o with
  | some _ => s
  | none => []

/-- Open-exit sentences of the look branch, in source order
(north, south, east, west, up, down). -/
def exitsStr (cfg : Cfg) : Chars :=
  optLine cfg.north "A doorway leads away from the room to the north.\n".data ++
  optLine cfg.south "A doorway leads away from the room to the south.\n".data ++
  optLine cfg.east "A doorway leads away from the room to the east.\n".data ++
  optLine cfg.west "A doorway leads away from the room to the west.\n".data ++
  optLine cfg.up "A latch on the roof leads away from the room above.\n".data ++
  optLine cfg.down "A latch on the ground leads away from the room below.\n".data

/-- Python message.split() (whitespace split, empties discarded). -/
def pyWords (l : Chars) : List Chars :=
  (splitOnP wsB l).filter (fun t => !t.isEmpty)

/-- Broadcast payload of a movement branch (name may resolve to
"Player Not Found"). -/
def movePayGo (players : List Chars) (sp : Nat) (txt : Chars) :
    Except PErr Chars :=
  match get_player_name_by_port players sp with
  | .error er => .error er
  | .ok nm => .ok (nm ++ txt)

def movePay (players : List Chars) (spE : Except PErr Nat) (txt : Chars) :
    Except PErr Chars :=
  match spE with
  | .error er => .error er
  | .ok sp => movePayGo players sp txt

/-- Broadcast payload of the say branch: i_msg = message.split() with its
first word popped, then name + " said \"" + " ".join(i_msg) + "\".". -/
def sayPayGo (players : List Chars) (sp : Nat) (rest : List Chars) :
    Except PErr Chars :=
  match get_player_name_by_port players sp with
  | .error er => .error er
  | .ok nm =>
    .ok (nm ++ " said \"".data ++ List.intercalate [' '] rest ++
      "\".".data)

def sayPay (players : List Chars) (spE : Except PErr Nat) (msg : Chars) :
    Except PErr Chars :=
  match pyWords msg with
  | [] => .error .index
  | _ :: rest =>
    match spE with
    | .error er => .error er
    | .ok sp => sayPayGo players sp rest

/-- Broadcast payload of the exit branch. -/
def exitPayGo (players : List Chars) (sp : Nat) : Except PErr Chars :=
  match get_player_name_by_port players sp with
  | .error er => .error er
  | .ok nm => .ok (nm ++ " has left the game completely.\n".data)

def exitPay (players : List Chars) (spE : Except PErr Nat) :
    Except PErr Chars :=
  match spE with
  | .error er => .error er
  | .ok sp => exitPayGo players sp

/-- The movement branches' try block: int(parsed_port),
get_player_name_by_port and players.remove, with except ValueError
leaving the roster unchanged; an IndexError escapes. -/
def tryRemoveGo (players : List Chars) (sp : Nat) (senderStr : Chars) :
    Except PErr (List Chars) :=
  match get_player_name_by_port players sp with
  | .error .index => .error .index
  | .error .value => .ok players
  | .ok nm =>
    if senderStr ++ '-' :: nm ∈ players then
      .ok (removeFirst players (senderStr ++ '-' :: nm))
    else .ok players

def tryRemove (players : List Chars) (spE : Except PErr Nat)
    (senderStr : Chars) : Except PErr (List Chars) :=
  match spE with
  | .error .index => .error .index
  | .error .value => .ok players
  | .ok sp => tryRemoveGo players sp senderStr

/-- One directional branch: FAILURE if the neighbor is absent, otherwise
broadcast the leave notice, try to remove the mover, send the address. -/
def moveBranch (st : Room) (sender : Addr) (spE : Except PErr Nat)
    (dest : Option Chars) (txt : Chars) : Except PErr (Room × List Out) :=
  match dest with
  | none => .ok (st, [(sender, OPERATION_FAILURE)])
  | some nr =>
    match fanout spE (movePay st.players spE txt) st.players with
    | .error er => .error er
    | .ok outs =>
      match tryRemove st.players spE (pyAddrStr sender.1 sender.2) with
      | .error er => .error er
      | .ok ps' => .ok (⟨st.name, st.desc, st.items, ps'⟩,
          outs ++ [(sender, nr)])

/-- Body of the new_connection branch once connection[1] is parsed:
append the entry, then notify every other-port roster entry. -/
def newConnGo (st : Room) (sender : Addr) (cname : Chars) :
    Except PErr (Room × List Out) :=
  match fanout (pyIntE (parsedPortStr sender))
      (.ok (cname ++ " entered the room.".data))
      (st.players ++ [mkPlayer sender cname]) with
  | .error er => .error er
  | .ok outs =>
    .ok (⟨st.name, st.desc, st.items,
      st.players ++ [mkPlayer sender cname]⟩, outs)

/-- Body of the exit branch once exit_info[1] is parsed: broadcast the
leave notice, then try to remove str(client_address) + "-" + exit_info[1]
(ValueError caught, IndexError not). -/
def exitGo (st : Room) (sender : Addr) (nm : Chars) :
    Except PErr (Room × List Out) :=
  match (exitFan (pyIntE (parsedPortStr sender))
      (exitPay st.players (pyIntE (parsedPortStr sender))) st.players).2 with
  | some .index => .error .index
  | some .value =>
    .ok (st, (exitFan (pyIntE (parsedPortStr sender))
      (exitPay st.players (pyIntE (parsedPortStr sender))) st.players).1)
  | none =>
    if pyAddrStr sender.1 sender.2 ++ '-' :: nm ∈ st.players then
      .ok (⟨st.name, st.desc, st.items,
        removeFirst st.players (pyAddrStr sender.1 sender.2 ++ '-' :: nm)⟩,
        (exitFan (pyIntE (parsedPortStr sender))
          (exitPay st.players (pyIntE (parsedPortStr sender))) st.players).1)
    else
      .ok (st, (exitFan (pyIntE (parsedPortStr sender))
        (exitPay st.players (pyIntE (parsedPortStr sender))) st.players).1)

/-- One iteration of room.py's while-loop on a received datagram: the
if/elif chain in source order, with .ok (state, sends) for a completed
iteration and .error for an uncaught exception. -/
def roomStep (cfg : Cfg) (st : Room) (msg : Chars) (sender : Addr) :
    Except PErr (Room × List Out) :=
  if containsB "new_connection,".data msg then
    match (splitOnC ',' msg)[1]? with
    | none => .error .index
    | some cname => newConnGo st sender cname
  else if containsB "say".data msg then
    match fanout (pyIntE (parsedPortStr sender)) (sayPay st.players (pyIntE (parsedPortStr sender)) msg) st.players with
    | .error er => .error er
    | .ok outs => .ok (st, outs)
  else if msg = "look".data then
    match lookLines sender st.players with
    | .error er => .error er
    | .ok pls => .ok (st, [(sender, roomStr st ++ pls ++ exitsStr cfg)])
  else if containsB "take".data msg then
    match (splitOnC ' ' msg)[1]? with
    | none => .ok (st, [(sender, OPERATION_FAILURE)])
    | some item =>
      if (st.remove_item item).1 then
        .ok ((st.remove_item item).2, [(sender, OPERATION_SUCCESS)])
      else .ok (st, [(sender, OPERATION_FAILURE)])
  else if containsB "drop".data msg then
    match (splitOnC ' ' msg)[1]? with
    | none => .error .index
    | some item => .ok (st.add_item item, [])
  else if msg = "north".data then moveBranch st sender (pyIntE (parsedPortStr sender)) cfg.north (dirTxt .north)
  else if msg = "east".data then moveBranch st sender (pyIntE (parsedPortStr sender)) cfg.east (dirTxt .east)
  else if msg = "south".data then moveBranch st sender (pyIntE (parsedPortStr sender)) cfg.south (dirTxt .south)
  else if msg = "west".data then moveBranch st sender (pyIntE (parsedPortStr sender)) cfg.west (dirTxt .west)
  else if msg = "up".data then moveBranch st sender (pyIntE (parsedPortStr sender)) cfg.up (dirTxt .up)
  else if msg = "down".data then moveBranch st sender (pyIntE (parsedPortStr sender)) cfg.down (dirTxt .down)
  else if containsB "exit".data msg then
    match (splitOnC ',' msg)[1]? with
    | none => .error .index
    | some nm => exitGo st sender nm
  else .ok (st, [])

/- Well-formedness of a roster description: host without comma, positive
port, name without comma (new_connection can never store a comma). -/
def WFent (x : Addr × Chars) : Prop :=
  ',' ∉ x.1.1 ∧ 0 < x.1.2 ∧ ',' ∉ x.2

instance : DecidablePred WFent := fun x => by
  unfold WFent
  infer_instance

/-- The roster entry strings of an abstract roster description. -/
def rosterOf (ros : List (Addr × Chars)) : List Chars :=
  ros.map (fun x => mkPlayer x.1 x.2)

theorem notMem_pred {sep : Char} {t : Chars} (h : sep ∉ t) :
    ∀ c ∈ t, (c == sep) = false := by
  intro c hc
  rw [beq_eq_false_iff_ne]
  rintro rfl
  exact h hc

theorem host_part_no_comma (hH : Chars) (hc : ',' ∉ hH) :
    ∀ c ∈ ('(' :: '\'' :: hH ++ ['\'']), (c == ',') = false := by
  intro c hm
  rw [beq_eq_false_iff_ne]
  rintro rfl
  rcases List.mem_cons.1 hm with h | hm
  · exact absurd h (by decide)
  rcases List.mem_cons.1 hm with h | hm
  · exact absurd h (by decide)
  rcases List.mem_append.1 hm with h | h
  · exact hc h
  · exact absurd (List.mem_singleton.1 h) (by decide)

theorem port_piece_no_comma (p : Nat) :
    ∀ c ∈ ((' ' :: portStr p) ++ [')']), (c == ',') = false := by
  intro c hm
  rw [beq_eq_false_iff_ne]
  rintro rfl
  rcases List.mem_append.1 hm with h | h
  · rcases List.mem_cons.1 h with h | h
    · exact absurd h (by decide)
    · exact absurd (portStr_digits p _ h) (by decide)
  · exact absurd (List.mem_singleton.1 h) (by decide)

theorem port_piece_no_hyphen (p : Nat) :
    ∀ c ∈ ((' ' :: portStr p) ++ [')']), (c == '-') = false := by
  intro c hm
  rw [beq_eq_false_iff_ne]
  rintro rfl
  rcases List.mem_append.1 hm with h | h
  · rcases List.mem_cons.1 h with h | h
    · exact absurd h (by decide)
    · exact absurd (portStr_digits p _ h) (by decide)
  · exact absurd (List.mem_singleton.1 h) (by decide)

theorem split_comma_addr (hH : Chars) (p : Nat) (hc : ',' ∉ hH) :
    splitOnC ',' (pyAddrStr hH p) =
      ['(' :: '\'' :: hH ++ ['\''], (' ' :: portStr p) ++ [')']] := by
  show splitOnP (fun c => c == ',')
    (('(' :: '\'' :: hH ++ ['\'']) ++ ',' :: ((' ' :: portStr p) ++ [')']))
    = _
  rw [splitOnP_tok _ _ ',' _ (host_part_no_comma hH hc) (by decide),
    splitOnP_all_false _ _ (port_piece_no_comma p)]

theorem split_comma_mk (hH : Chars) (p : Nat) (n : Chars)
    (hc : ',' ∉ hH) (hn : ',' ∉ n) :
    splitOnC ',' (mkPlayer (hH, p) n) =
      ['(' :: '\'' :: hH ++ ['\''],
        ((' ' :: portStr p) ++ [')']) ++ '-' :: n] := by
  have hmk : mkPlayer (hH, p) n =
      ('(' :: '\'' :: hH ++ ['\'']) ++
        ',' :: (((' ' :: portStr p) ++ [')']) ++ '-' :: n) := by
    unfold mkPlayer pyAddrStr
    simp [List.append_assoc]
  rw [hmk]
  show splitOnP (fun c => c == ',') _ = _
  rw [splitOnP_tok _ _ ',' _ (host_part_no_comma hH hc) (by decide)]
  have htail : ∀ c ∈ (((' ' :: portStr p) ++ [')']) ++ '-' :: n),
      (c == ',') = false := by
    intro c hm
    rcases List.mem_append.1 hm with h | h
    · exact port_piece_no_comma p c h
    · rw [beq_eq_false_iff_ne]
      rintro rfl
      rcases List.mem_cons.1 h with h | h
      · exact absurd h (by decide)
      · exact hn h
  rw [splitOnP_all_false _ _ htail]

theorem split_hyphen_piece (p : Nat) (n : Chars) :
    splitOnC '-' (((' ' :: portStr p) ++ [')']) ++ '-' :: n) =
      ((' ' :: portStr p) ++ [')']) :: splitOnC '-' n := by
  show splitOnP (fun c => c == '-') _ = _
  exact splitOnP_tok _ _ '-' _ (port_piece_no_hyphen p) (by decide)

theorem entryPort_mk (hH : Chars) (p : Nat) (n : Chars)
    (hc : ',' ∉ hH) (hp : 0 < p) (hn : ',' ∉ n) :
    entryPort (mkPlayer (hH, p) n) = .ok p := by
  unfold entryPort
  rw [split_comma_mk hH p n hc hn]
  simp only [List.getElem?_cons_succ, List.getElem?_cons_zero,
    Option.some.injEq]
  rw [split_hyphen_piece p n]
  simp only [List.headD_cons]
  exact pyIntE_port_piece p hp

theorem parsedPort_ok (hH : Chars) (p : Nat) (hc : ',' ∉ hH) (hp : 0 < p) :
    pyIntE (parsedPortStr (hH, p)) = .ok p := by
  unfold parsedPortStr
  rw [show ((hH, p) : Addr).1 = hH from rfl, show ((hH, p) : Addr).2 = p from rfl,
    split_comma_addr hH p hc]
  simp only [List.getD, List.getElem?_cons_succ, List.getElem?_cons_zero,
    Option.getD_some]
  exact pyIntE_port_piece_ws p hp

theorem gpn_cons (hH : Chars) (p : Nat) (n : Chars) (rest : List Chars)
    (sp : Nat) (hc : ',' ∉ hH) (hp : 0 < p) (hn : ',' ∉ n) :
    get_player_name_by_port (mkPlayer (hH, p) n :: rest) sp =
      if sp = p then .ok ((splitOnC '-' n).headD [])
      else get_player_name_by_port rest sp := by
  rw [get_player_name_by_port, split_comma_mk hH p n hc hn]
  simp only [List.getElem?_cons_succ, List.getElem?_cons_zero]
  rw [split_hyphen_piece p n]
  simp only [List.headD_cons]
  rw [pyIntE_port_piece_ws p hp]
  by_cases h : sp = p
  · rcases he : splitOnC '-' n with _ | ⟨t, ts⟩
    · exact absurd he (splitOnP_ne_nil _ n)
    · simp [h, he]
  · simp [h]

theorem gpn_nomatch (ros : List (Addr × Chars)) (sp : Nat)
    (hwf : ∀ x ∈ ros, WFent x) (hne : ∀ x ∈ ros, x.1.2 ≠ sp) :
    get_player_name_by_port (rosterOf ros) sp =
      .ok "Player Not Found".data := by
  induction ros with
  | nil => rfl
  | cons x ros' ih =>
    obtain ⟨⟨hH, p⟩, n⟩ := x
    obtain ⟨hc, hp, hn⟩ := hwf ⟨⟨hH, p⟩, n⟩ (by simp)
    have hx : sp ≠ p := fun hh => hne ⟨⟨hH, p⟩, n⟩ (by simp) (by simp [hh.symm])
    rw [show rosterOf ((⟨⟨hH, p⟩, n⟩ :: ros')) =
        mkPlayer (hH, p) n :: rosterOf ros' from rfl,
      gpn_cons hH p n _ sp hc hp hn, if_neg hx]
    exact ih (fun y hy => hwf y (by simp [hy]))
      (fun y hy => hne y (by simp [hy]))

theorem gpn_first (ros1 : List (Addr × Chars)) (hH : Chars) (p : Nat)
    (n : Chars) (ros2 : List (Addr × Chars))
    (hwf : ∀ x ∈ ros1, WFent x) (hports : ∀ x ∈ ros1, x.1.2 ≠ p)
    (hc : ',' ∉ hH) (hp : 0 < p) (hn : ',' ∉ n) (hn2 : '-' ∉ n) :
    get_player_name_by_port
      (rosterOf (ros1 ++ ((hH, p), n) :: ros2)) p = .ok n := by
  induction ros1 with
  | nil =>
    simp only [List.nil_append]
    rw [show rosterOf ((((hH, p), n) : Addr × Chars) :: ros2) =
        mkPlayer (hH, p) n :: rosterOf ros2 from rfl,
      gpn_cons hH p n _ p hc hp hn, if_pos rfl,
      show splitOnC '-' n = splitOnP (fun c => c == '-') n from rfl,
      splitOnP_all_false _ n (notMem_pred hn2)]
    rfl
  | cons x ros1' ih =>
    obtain ⟨⟨hH', p'⟩, n'⟩ := x
    obtain ⟨hc', hp', hn'⟩ := hwf ⟨⟨hH', p'⟩, n'⟩ (by simp)
    have hx : p ≠ p' := fun hh =>
      hports ⟨⟨hH', p'⟩, n'⟩ (by simp) (by simp [hh.symm])
    rw [show rosterOf ((⟨⟨hH', p'⟩, n'⟩ :: ros1') ++ ((hH, p), n) :: ros2) =
        mkPlayer (hH', p') n' :: rosterOf (ros1' ++ ((hH, p), n) :: ros2)
        from rfl,
      gpn_cons hH' p' n' _ p hc' hp' hn', if_neg hx]
    exact ih (fun y hy => hwf y (by simp [hy]))
      (fun y hy => hports y (by simp [hy]))

theorem fanout_map (ros : List (Addr × Chars)) (sp : Nat) (m : Chars)
    (hwf : ∀ x ∈ ros, WFent x) :
    fanout (.ok sp) (.ok m) (rosterOf ros) =
      .ok ((ros.filter (fun x => x.1.2 != sp)).map
        (fun x => ((localhost, x.1.2), m))) := by
  induction ros with
  | nil => rfl
  | cons x ros' ih =>
    obtain ⟨⟨hH, p⟩, n⟩ := x
    obtain ⟨hc, hp, hn⟩ := hwf ⟨⟨hH, p⟩, n⟩ (by simp)
    have ih' := ih (fun y hy => hwf y (by simp [hy]))
    rw [show rosterOf (⟨⟨hH, p⟩, n⟩ :: ros') =
        mkPlayer (hH, p) n :: rosterOf ros' from rfl]
    simp only [fanout, entryPort_mk hH p n hc hp hn]
    by_cases h : sp = p
    · subst h
      simp [ih', List.filter_cons]
    · simp [h, ih', List.filter_cons, Ne.symm h]

theorem exitFan_map (ros : List (Addr × Chars)) (sp : Nat) (m : Chars)
    (hwf : ∀ x ∈ ros, WFent x) :
    exitFan (.ok sp) (.ok m) (rosterOf ros) =
      ((ros.filter (fun x => x.1.2 != sp)).map
        (fun x => ((localhost, x.1.2), m)), none) := by
  induction ros with
  | nil => rfl
  | cons x ros' ih =>
    obtain ⟨⟨hH, p⟩, n⟩ := x
    obtain ⟨hc, hp, hn⟩ := hwf ⟨⟨hH, p⟩, n⟩ (by simp)
    have ih' := ih (fun y hy => hwf y (by simp [hy]))
    rw [show rosterOf (⟨⟨hH, p⟩, n⟩ :: ros') =
        mkPlayer (hH, p) n :: rosterOf ros' from rfl]
    simp only [exitFan, entryPort_mk hH p n hc hp hn]
    by_cases h : sp = p
    · subst h
      simp [ih', List.filter_cons]
    · simp [h, ih', List.filter_cons, Ne.symm h]

theorem removeFirst_append (l1 l2 : List Chars) (x : Chars) (hx : x ∉ l1) :
    removeFirst (l1 ++ x :: l2) x = l1 ++ l2 := by
  induction l1 with
  | nil => simp [removeFirst]
  | cons a l1' ih =>
    have ha : a ≠ x := fun hh => hx (by simp [hh])
    simp [removeFirst, ha, ih (fun hh => hx (by simp [hh]))]

theorem mkPlayer_ne_of_port_ne (hH : Chars) (p : Nat) (n : Chars)
    (hH' : Chars) (p' : Nat) (n' : Chars)
    (h1 : ',' ∉ hH) (hp : 0 < p) (hn : ',' ∉ n)
    (h1' : ',' ∉ hH') (hp' : 0 < p') (hn' : ',' ∉ n') (hne : p' ≠ p) :
    mkPlayer (hH', p') n' ≠ mkPlayer (hH, p) n := by
  intro h
  have e1 := entryPort_mk hH' p' n' h1' hp' hn'
  rw [h, entryPort_mk hH p n h1 hp hn] at e1
  exact hne (Except.ok.inj e1).symm

theorem mkPlayer_not_mem (ros1 : List (Addr × Chars)) (hH : Chars)
    (p : Nat) (n : Chars)
    (hwf : ∀ x ∈ ros1, WFent x) (hports : ∀ x ∈ ros1, x.1.2 ≠ p)
    (hc : ',' ∉ hH) (hp : 0 < p) (hn : ',' ∉ n) :
    mkPlayer (hH, p) n ∉ rosterOf ros1 := by
  intro hm
  rw [rosterOf, List.mem_map] at hm
  obtain ⟨x, hx, heq⟩ := hm
  obtain ⟨⟨hH', p'⟩, n'⟩ := x
  obtain ⟨hc', hp', hn'⟩ := hwf ⟨⟨hH', p'⟩, n'⟩ hx
  exact mkPlayer_ne_of_port_ne hH p n hH' p' n' hc hp hn hc' hp' hn'
    (hports ⟨⟨hH', p'⟩, n'⟩ hx) heq

theorem not_contains_verb_arg (pat verb arg : Chars) (hne : pat ≠ [])
    (hhead : pat.head hne ∉ verb) (harg : containsB pat arg = false) :
    containsB pat (verb ++ arg) = false := by
  rw [containsB_false_iff]
  intro h
  exact absurd (inf_app_right pat verb arg hne hhead h)
    ((containsB_false_iff _ _).1 harg)

theorem not_contains_split (pat x arg : Chars) (c : Char) (hc : c ∉ pat)
    (h1 : containsB pat x = false) (h2 : containsB pat arg = false) :
    containsB pat (x ++ c :: arg) = false := by
  rw [containsB_false_iff]
  intro h
  rcases inf_split pat x arg c hc h with h3 | h3
  · exact absurd h3 ((containsB_false_iff _ _).1 h1)
  · exact absurd h3 ((containsB_false_iff _ _).1 h2)

theorem ne_cons1 {a b : Char} {l s : Chars} (h : a ≠ b) :
    (a :: l : Chars) ≠ b :: s := by
  intro hh
  injection hh with h1 _
  exact h h1

theorem ne_cons2 {a b c d : Char} {l s : Chars} (h : ¬(a = c ∧ b = d)) :
    (a :: b :: l : Chars) ≠ c :: d :: s := by
  intro hh
  injection hh with h1 hh2
  injection hh2 with h2 _
  exact h ⟨h1, h2⟩

end RoomSrv

/-- C2 counterexample: a `drop` datagram with no item argument after the
verb makes the drop handler raise an uncaught IndexError
(pair_input[1] in room.py), aborting the iteration, so the handler does
not "never fail". -/
theorem drop_no_arg_raises :
    RoomSrv.roomStep ⟨none, none, none, none, none, none⟩
      ⟨"start".data, "desc".data, ["apple".data], []⟩ "drop".data
      (RoomSrv.localhost, 5000) = .error .index := by decide

/-- C2 (amended): a `drop <item>` datagram with an item argument never
fails, sends no response, and appends exactly one instance of the item to
the room's items, leaving all other room state unchanged; but a bare
`drop` with no argument raises an uncaught IndexError. -/
theorem drop_with_arg_appends (cfg : RoomSrv.Cfg) (st : RoomSrv.Room)
    (sender : RoomSrv.Addr) (item : Chars) (hsp : ' ' ∉ item)
    (h1 : containsB "new_connection,".data item = false)
    (h2 : containsB "say".data item = false)
    (h3 : containsB "take".data item = false) :
    RoomSrv.roomStep cfg st ("drop ".data ++ item) sender =
      .ok (⟨st.name, st.desc, st.items ++ [item], st.players⟩, []) := by
  have hA : containsB "new_connection,".data ("drop ".data ++ item) = false :=
    RoomSrv.not_contains_verb_arg _ "drop ".data item (by decide)
      (by decide) h1
  have hB : containsB "say".data ("drop ".data ++ item) = false :=
    RoomSrv.not_contains_verb_arg _ "drop ".data item (by decide)
      (by decide) h2
  have hC : ("drop ".data ++ item : Chars) ≠ "look".data :=
    RoomSrv.ne_cons1 (by decide)
  have hD : containsB "take".data ("drop ".data ++ item) = false :=
    RoomSrv.not_contains_verb_arg _ "drop ".data item (by decide)
      (by decide) h3
  have hE : containsB "drop".data ("drop ".data ++ item) = true :=
    containsB_of_pre _ _ ⟨' ' :: item, rfl⟩
  have hsplit : splitOnC ' ' ("drop ".data ++ item) = ["drop".data, item] :=
    Discovery.split_one_tok "drop".data (by decide) item hsp
  unfold RoomSrv.roomStep
  rw [hA, if_neg (show ¬ (false = true) by decide),
    hB, if_neg (show ¬ (false = true) by decide),
    if_neg hC,
    hD, if_neg (show ¬ (false = true) by decide),
    hE, if_pos rfl, hsplit]
  rfl

theorem drop_with_arg_appends_witness :
    RoomSrv.roomStep ⟨none, none, none, none, none, none⟩
      ⟨"start".data, "desc".data, ["apple".data], []⟩
      ("drop ".data ++ "sword".data) (RoomSrv.localhost, 5000) =
      .ok (⟨"start".data, "desc".data, ["apple".data, "sword".data], []⟩,
        []) :=
  drop_with_arg_appends ⟨none, none, none, none, none, none⟩
    ⟨"start".data, "desc".data, ["apple".data], []⟩
    (RoomSrv.localhost, 5000) "sword".data
    (by decide) (by decide) (by decide) (by decide)

/-- C5: a `take <item>` with the item present removes exactly the first
instance from the room's items and replies with the success sentinel; with
the item absent it replies with the failure sentinel and leaves the items
(and all other state) unchanged — hence two sequential `take apple` on a
room holding one apple yield success then failure. -/
theorem take_semantics (cfg : RoomSrv.Cfg) (st : RoomSrv.Room)
    (sender : RoomSrv.Addr) (item : Chars) (hsp : ' ' ∉ item)
    (h1 : containsB "new_connection,".data item = false)
    (h2 : containsB "say".data item = false) :
    (item ∈ st.items →
      RoomSrv.roomStep cfg st ("take ".data ++ item) sender =
        .ok (⟨st.name, st.desc, RoomSrv.removeFirst st.items item,
          st.players⟩, [(sender, RoomSrv.OPERATION_SUCCESS)])) ∧
    (item ∉ st.items →
      RoomSrv.roomStep cfg st ("take ".data ++ item) sender =
        .ok (st, [(sender, RoomSrv.OPERATION_FAILURE)])) := by
  have hA : containsB "new_connection,".data ("take ".data ++ item) = false :=
    RoomSrv.not_contains_verb_arg _ "take ".data item (by decide)
      (by decide) h1
  have hB : containsB "say".data ("take ".data ++ item) = false :=
    RoomSrv.not_contains_verb_arg _ "take ".data item (by decide)
      (by decide) h2
  have hC : ("take ".data ++ item : Chars) ≠ "look".data :=
    RoomSrv.ne_cons1 (by decide)
  have hE : containsB "take".data ("take ".data ++ item) = true :=
    containsB_of_pre _ _ ⟨' ' :: item, rfl⟩
  have hsplit : splitOnC ' ' ("take ".data ++ item) = ["take".data, item] :=
    Discovery.split_one_tok "take".data (by decide) item hsp
  constructor
  · intro hin
    unfold RoomSrv.roomStep
    rw [hA, if_neg (show ¬ (false = true) by decide),
      hB, if_neg (show ¬ (false = true) by decide),
      if_neg hC,
      hE, if_pos rfl, hsplit]
    simp [RoomSrv.Room.remove_item, hin]
  · intro hout
    unfold RoomSrv.roomStep
    rw [hA, if_neg (show ¬ (false = true) by decide),
      hB, if_neg (show ¬ (false = true) by decide),
      if_neg hC,
      hE, if_pos rfl, hsplit]
    simp [RoomSrv.Room.remove_item, hout]

theorem take_semantics_witness :
    RoomSrv.roomStep ⟨none, none, none, none, none, none⟩
      ⟨"start".data, "desc".data, ["apple".data], []⟩
      ("take ".data ++ "apple".data) (RoomSrv.localhost, 5000) =
      .ok (⟨"start".data, "desc".data, [], []⟩,
        [((RoomSrv.localhost, 5000), RoomSrv.OPERATION_SUCCESS)]) ∧
    RoomSrv.roomStep ⟨none, none, none, none, none, none⟩
      ⟨"start".data, "desc".data, [], []⟩
      ("take ".data ++ "apple".data) (RoomSrv.localhost, 5000) =
      .ok (⟨"start".data, "desc".data, [], []⟩,
        [((RoomSrv.localhost, 5000), RoomSrv.OPERATION_FAILURE)]) :=
  ⟨(take_semantics ⟨none, none, none, none, none, none⟩
      ⟨"start".data, "desc".data, ["apple".data], []⟩
      (RoomSrv.localhost, 5000) "apple".data
      (by decide) (by decide) (by decide)).1 (by decide),
   (take_semantics ⟨none, none, none, none, none, none⟩
      ⟨"start".data, "desc".data, [], []⟩
      (RoomSrv.localhost, 5000) "apple".data
      (by decide) (by decide) (by decide)).2 (by decide)⟩

/-- Dispatch of the six directional datagrams: each reaches its
moveBranch with the matching neighbor slot (plain evaluation of the
if/elif chain on the concrete message). -/
theorem roomStep_dirMsg (cfg : RoomSrv.Cfg) (st : RoomSrv.Room)
    (sender : RoomSrv.Addr) (d : RoomSrv.Direction) :
    RoomSrv.roomStep cfg st (RoomSrv.dirMsg d) sender =
      RoomSrv.moveBranch st sender (pyIntE (RoomSrv.parsedPortStr sender))
        (RoomSrv.cfgDir cfg d) (RoomSrv.dirTxt d) := by
  cases d <;> rfl

/-- C6: a directional movement datagram whose direction was not resolved
at startup is answered with the failure sentinel and changes nothing: the
roster and items are untouched and no broadcast datagram is sent. -/
theorem move_absent_failure (cfg : RoomSrv.Cfg) (st : RoomSrv.Room)
    (sender : RoomSrv.Addr) (d : RoomSrv.Direction)
    (h : RoomSrv.cfgDir cfg d = none) :
    RoomSrv.roomStep cfg st (RoomSrv.dirMsg d) sender =
      .ok (st, [(sender, RoomSrv.OPERATION_FAILURE)]) := by
  rw [roomStep_dirMsg cfg st sender d, h]
  rfl

theorem move_absent_failure_witness :
    RoomSrv.roomStep ⟨none, some "room://localhost:4242".data, none, none,
        none, none⟩
      ⟨"start".data, "desc".data, ["apple".data], []⟩
      (RoomSrv.dirMsg .north) (RoomSrv.localhost, 5000) =
      .ok (⟨"start".data, "desc".data, ["apple".data], []⟩,
        [((RoomSrv.localhost, 5000), RoomSrv.OPERATION_FAILURE)]) :=
  move_absent_failure
    ⟨none, some "room://localhost:4242".data, none, none, none, none⟩
    ⟨"start".data, "desc".data, ["apple".data], []⟩
    (RoomSrv.localhost, 5000) .north (by decide)

/-- C9 counterexample: the Room Server's wire sentinels are the strings
"operation_success"/"operation_failure", not "SUCCESS"/"FAILURE": the
reply for a successful take is exactly "operation_success". -/
theorem room_sentinel_not_uppercase :
    RoomSrv.OPERATION_SUCCESS ≠ "SUCCESS".data ∧
    RoomSrv.OPERATION_FAILURE ≠ "FAILURE".data ∧
    RoomSrv.roomStep ⟨none, none, none, none, none, none⟩
      ⟨"cave".data, "dark".data, ["gem".data], []⟩ "take gem".data
      (RoomSrv.localhost, 4001) =
      .ok (⟨"cave".data, "dark".data, [], []⟩,
        [((RoomSrv.localhost, 4001), "operation_success".data)]) := by
  refine ⟨by decide, by decide, by decide⟩

/-- C9 (amended): the Room Server's success/failure responses on the wire
are exactly the sentinel strings "operation_success" and
"operation_failure" (take hit/miss and movement into an absent
direction), while the Discovery sentinels are the short tokens
"OK"/"NOTOK". -/
theorem room_sentinels_exact :
    RoomSrv.OPERATION_SUCCESS = "operation_success".data ∧
    RoomSrv.OPERATION_FAILURE = "operation_failure".data ∧
    Discovery.OPERATION_SUCCESS = "OK".data ∧
    Discovery.OPERATION_FAILURE = "NOTOK".data ∧
    RoomSrv.roomStep ⟨none, none, none, none, none, none⟩
      ⟨"den".data, "dim".data, ["key".data], []⟩ "take key".data
      (RoomSrv.localhost, 4002) =
      .ok (⟨"den".data, "dim".data, [], []⟩,
        [((RoomSrv.localhost, 4002), "operation_success".data)]) ∧
    RoomSrv.roomStep ⟨none, none, none, none, none, none⟩
      ⟨"den".data, "dim".data, [], []⟩ "take key".data
      (RoomSrv.localhost, 4002) =
      .ok (⟨"den".data, "dim".data, [], []⟩,
        [((RoomSrv.localhost, 4002), "operation_failure".data)]) ∧
    RoomSrv.roomStep ⟨none, none, none, none, none, none⟩
      ⟨"den".data, "dim".data, [], []⟩ "west".data
      (RoomSrv.localhost, 4002) =
      .ok (⟨"den".data, "dim".data, [], []⟩,
        [((RoomSrv.localhost, 4002), "operation_failure".data)]) := by
  refine ⟨rfl, rfl, rfl, rfl, by decide, by decide, by decide⟩

/-- C3 counterexample: the bare datagram "exit" (no ",<name>" part) makes
the exit handler raise an uncaught IndexError (exit_info[1] inside a try
that only catches ValueError), so not every room datagram completes
without raising. -/
theorem exit_malformed_raises :
    RoomSrv.roomStep ⟨none, none, none, none, none, none⟩
      ⟨"start".data, "desc".data, ["apple".data],
        [RoomSrv.mkPlayer (RoomSrv.localhost, 6000) "bob".data]⟩
      "exit".data (RoomSrv.localhost, 5000) = .error .index := by decide

/-- C4 counterexample: a second new_connection from the same endpoint
appends a second roster entry instead of overwriting, so an endpoint can
appear twice in the roster. -/
theorem new_connection_duplicates_endpoint :
    RoomSrv.roomStep ⟨none, none, none, none, none, none⟩
      ⟨"start".data, "desc".data, [], []⟩
      "new_connection,bob".data ("127.0.0.1".data, 5000) =
      .ok (⟨"start".data, "desc".data, [],
        [RoomSrv.mkPlayer ("127.0.0.1".data, 5000) "bob".data]⟩, []) ∧
    RoomSrv.roomStep ⟨none, none, none, none, none, none⟩
      ⟨"start".data, "desc".data, [],
        [RoomSrv.mkPlayer ("127.0.0.1".data, 5000) "bob".data]⟩
      "new_connection,bob".data ("127.0.0.1".data, 5000) =
      .ok (⟨"start".data, "desc".data, [],
        [RoomSrv.mkPlayer ("127.0.0.1".data, 5000) "bob".data,
         RoomSrv.mkPlayer ("127.0.0.1".data, 5000) "bob".data]⟩, []) ∧
    List.count (RoomSrv.mkPlayer ("127.0.0.1".data, 5000) "bob".data)
      [RoomSrv.mkPlayer ("127.0.0.1".data, 5000) "bob".data,
       RoomSrv.mkPlayer ("127.0.0.1".data, 5000) "bob".data] = 2 := by
  refine ⟨by decide, by decide, by decide⟩

/-- C4 (amended): a `new_connection,<name>` datagram always appends
exactly one roster entry for the sender endpoint — also when that
endpoint already has an entry (no overwrite, duplicates possible) — and
notifies every roster entry whose port differs from the sender's. -/
theorem new_connection_appends (cfg : RoomSrv.Cfg) (st : RoomSrv.Room)
    (ros : List (RoomSrv.Addr × Chars)) (hH : Chars) (p : Nat)
    (name : Chars)
    (hplayers : st.players = RoomSrv.rosterOf ros)
    (hwf : ∀ x ∈ ros, RoomSrv.WFent x)
    (hc : ',' ∉ hH) (hp : 0 < p) (hname : ',' ∉ name) :
    RoomSrv.roomStep cfg st ("new_connection,".data ++ name) (hH, p) =
      .ok (⟨st.name, st.desc, st.items,
        st.players ++ [RoomSrv.mkPlayer (hH, p) name]⟩,
        (ros.filter (fun x => x.1.2 != p)).map
          (fun x => ((RoomSrv.localhost, x.1.2),
            name ++ " entered the room.".data))) := by
  have hA : containsB "new_connection,".data
      ("new_connection,".data ++ name) = true :=
    containsB_of_pre _ _ ⟨name, rfl⟩
  have hsplit : splitOnC ',' ("new_connection,".data ++ name) =
      ["new_connection".data, name] := by
    show splitOnP (fun c => c == ',')
      ("new_connection".data ++ ',' :: name) = ["new_connection".data, name]
    rw [splitOnP_tok _ _ ',' _ (by decide) (by decide),
      splitOnP_all_false _ name (RoomSrv.notMem_pred hname)]
  have hwf' : ∀ x ∈ ros ++ [((hH, p), name)], RoomSrv.WFent x := by
    intro x hx
    rcases List.mem_append.1 hx with hx | hx
    · exact hwf x hx
    · rw [List.mem_singleton.1 hx]
      exact ⟨hc, hp, hname⟩
  have hr : RoomSrv.rosterOf ros ++ [RoomSrv.mkPlayer (hH, p) name] =
      RoomSrv.rosterOf (ros ++ [((hH, p), name)]) := by
    simp [RoomSrv.rosterOf]
  have hfan := RoomSrv.fanout_map (ros ++ [((hH, p), name)]) p
    (name ++ " entered the room.".data) hwf'
  unfold RoomSrv.roomStep
  rw [hA, if_pos rfl, hsplit]
  show RoomSrv.newConnGo st (hH, p) name = _
  unfold RoomSrv.newConnGo
  rw [hplayers, RoomSrv.parsedPort_ok hH p hc hp, hr, hfan]
  simp [List.filter_append]

theorem new_connection_appends_witness :
    RoomSrv.roomStep ⟨none, none, none, none, none, none⟩
      ⟨"start".data, "desc".data, [],
        RoomSrv.rosterOf [(("127.0.0.1".data, 6000), "ann".data)]⟩
      ("new_connection,".data ++ "bob".data) ("127.0.0.1".data, 5000) =
      .ok (⟨"start".data, "desc".data, [],
        RoomSrv.rosterOf [(("127.0.0.1".data, 6000), "ann".data)] ++
          [RoomSrv.mkPlayer ("127.0.0.1".data, 5000) "bob".data]⟩,
        [((RoomSrv.localhost, 6000),
          "bob".data ++ " entered the room.".data)]) :=
  (new_connection_appends ⟨none, none, none, none, none, none⟩
    ⟨"start".data, "desc".data, [],
      RoomSrv.rosterOf [(("127.0.0.1".data, 6000), "ann".data)]⟩
    [(("127.0.0.1".data, 6000), "ann".data)] "127.0.0.1".data 5000
    "bob".data rfl (by decide) (by decide) (by decide) (by decide)).trans
    (by decide)

/-- C3 (amended): a well-formed `exit,<name>` datagram from an endpoint
with no roster entry completes without raising: the server sends no
response to the caller (only "Player Not Found has left ..." notices to
the rostered endpoints), leaves the roster unchanged, and continues; but
a malformed bare `exit` raises an uncaught IndexError (counterexample
theorem). -/
theorem exit_unknown_endpoint_safe (cfg : RoomSrv.Cfg) (st : RoomSrv.Room)
    (ros : List (RoomSrv.Addr × Chars)) (hH : Chars) (p : Nat)
    (name : Chars)
    (hplayers : st.players = RoomSrv.rosterOf ros)
    (hwf : ∀ x ∈ ros, RoomSrv.WFent x)
    (hports : ∀ x ∈ ros, x.1.2 ≠ p)
    (hc : ',' ∉ hH) (hp : 0 < p) (hname : ',' ∉ name)
    (h1 : containsB "new_connection,".data name = false)
    (h2 : containsB "say".data name = false)
    (h3 : containsB "take".data name = false)
    (h4 : containsB "drop".data name = false) :
    RoomSrv.roomStep cfg st ("exit,".data ++ name) (hH, p) =
      .ok (st, ros.map (fun x => ((RoomSrv.localhost, x.1.2),
        "Player Not Found has left the game completely.\n".data))) ∧
    ∀ o ∈ ros.map (fun x => ((RoomSrv.localhost, x.1.2),
        "Player Not Found has left the game completely.\n".data)),
      o.1 ≠ ((hH, p) : RoomSrv.Addr) := by
  have hA : containsB "new_connection,".data ("exit,".data ++ name) = false :=
    RoomSrv.not_contains_verb_arg _ "exit,".data name (by decide)
      (by decide) h1
  have hB : containsB "say".data ("exit,".data ++ name) = false :=
    RoomSrv.not_contains_verb_arg _ "exit,".data name (by decide)
      (by decide) h2
  have hC : ("exit,".data ++ name : Chars) ≠ "look".data :=
    RoomSrv.ne_cons1 (by decide)
  have hD : containsB "take".data ("exit,".data ++ name) = false :=
    RoomSrv.not_contains_split "take".data "exit".data name ','
      (by decide) (by decide) h3
  have hE : containsB "drop".data ("exit,".data ++ name) = false :=
    RoomSrv.not_contains_verb_arg _ "exit,".data name (by decide)
      (by decide) h4
  have hN : ("exit,".data ++ name : Chars) ≠ "north".data :=
    RoomSrv.ne_cons1 (by decide)
  have hEa : ("exit,".data ++ name : Chars) ≠ "east".data :=
    RoomSrv.ne_cons2 (by decide)
  have hS : ("exit,".data ++ name : Chars) ≠ "south".data :=
    RoomSrv.ne_cons1 (by decide)
  have hW : ("exit,".data ++ name : Chars) ≠ "west".data :=
    RoomSrv.ne_cons1 (by decide)
  have hU : ("exit,".data ++ name : Chars) ≠ "up".data :=
    RoomSrv.ne_cons1 (by decide)
  have hDn : ("exit,".data ++ name : Chars) ≠ "down".data :=
    RoomSrv.ne_cons1 (by decide)
  have hX : containsB "exit".data ("exit,".data ++ name) = true :=
    containsB_of_pre _ _ ⟨',' :: name, rfl⟩
  have hsplit : splitOnC ',' ("exit,".data ++ name) =
      ["exit".data, name] := by
    show splitOnP (fun c => c == ',') ("exit".data ++ ',' :: name) =
      ["exit".data, name]
    rw [splitOnP_tok _ _ ',' _ (by decide) (by decide),
      splitOnP_all_false _ name (RoomSrv.notMem_pred hname)]
  have hpay : RoomSrv.exitPay (RoomSrv.rosterOf ros) (.ok p) =
      .ok ("Player Not Found has left the game completely.\n".data) := by
    show RoomSrv.exitPayGo (RoomSrv.rosterOf ros) p = _
    unfold RoomSrv.exitPayGo
    rw [RoomSrv.gpn_nomatch ros p hwf hports]
    rfl
  have hfil : ros.filter (fun x => x.1.2 != p) = ros :=
    List.filter_eq_self.2 (fun x hx => by
      rw [bne_iff_ne]
      exact hports x hx)
  have hfan : RoomSrv.exitFan (.ok p)
      (.ok ("Player Not Found has left the game completely.\n".data))
      (RoomSrv.rosterOf ros) =
      (ros.map (fun x => ((RoomSrv.localhost, x.1.2),
        "Player Not Found has left the game completely.\n".data)), none) := by
    rw [RoomSrv.exitFan_map ros p _ hwf, hfil]
  have hmem : RoomSrv.pyAddrStr hH p ++ '-' :: name ∉
      RoomSrv.rosterOf ros :=
    RoomSrv.mkPlayer_not_mem ros hH p name hwf hports hc hp hname
  constructor
  · unfold RoomSrv.roomStep
    rw [hA, if_neg (show ¬ (false = true) by decide),
      hB, if_neg (show ¬ (false = true) by decide),
      if_neg hC,
      hD, if_neg (show ¬ (false = true) by decide),
      hE, if_neg (show ¬ (false = true) by decide),
      if_neg hN, if_neg hEa, if_neg hS, if_neg hW, if_neg hU, if_neg hDn,
      hX, if_pos rfl, hsplit]
    show RoomSrv.exitGo st (hH, p) name = _
    unfold RoomSrv.exitGo
    rw [show (((hH, p) : RoomSrv.Addr)).1 = hH from rfl,
      show (((hH, p) : RoomSrv.Addr)).2 = p from rfl,
      hplayers, RoomSrv.parsedPort_ok hH p hc hp, hpay, hfan,
      if_neg hmem]
  · intro o hm
    rw [List.mem_map] at hm
    obtain ⟨x, hx, rfl⟩ := hm
    intro heq
    have h2 := congrArg Prod.snd heq
    exact hports x hx h2

theorem exit_unknown_endpoint_safe_witness :
    RoomSrv.roomStep ⟨none, none, none, none, none, none⟩
      ⟨"start".data, "desc".data, [],
        RoomSrv.rosterOf [(("127.0.0.1".data, 6000), "ann".data)]⟩
      ("exit,".data ++ "mallory".data) ("127.0.0.1".data, 5000) =
      .ok (⟨"start".data, "desc".data, [],
        RoomSrv.rosterOf [(("127.0.0.1".data, 6000), "ann".data)]⟩,
        [((RoomSrv.localhost, 6000),
          "Player Not Found has left the game completely.\n".data)]) :=
  ((exit_unknown_endpoint_safe ⟨none, none, none, none, none, none⟩
    ⟨"start".data, "desc".data, [],
      RoomSrv.rosterOf [(("127.0.0.1".data, 6000), "ann".data)]⟩
    [(("127.0.0.1".data, 6000), "ann".data)] "127.0.0.1".data 5000
    "mallory".data rfl (by decide) (by decide) (by decide) (by decide)
    (by decide) (by decide) (by decide) (by decide) (by decide)).1).trans
    (by decide)

/-- C7 counterexample: a movement with the neighbor resolved, sent by a
roster member whose display name contains a hyphen, replies with the
neighbor's address but does NOT remove the sender's roster entry: the
reconstructed entry string uses only the name piece before the hyphen, so
players.remove raises a caught ValueError and the roster is unchanged. -/
theorem move_hyphen_name_not_removed :
    RoomSrv.roomStep ⟨some "room://localhost:4242".data, none, none, none,
        none, none⟩
      ⟨"start".data, "desc".data, [],
        [RoomSrv.mkPlayer ("127.0.0.1".data, 5000) "a-b".data]⟩
      "north".data ("127.0.0.1".data, 5000) =
      .ok (⟨"start".data, "desc".data, [],
        [RoomSrv.mkPlayer ("127.0.0.1".data, 5000) "a-b".data]⟩,
        [(("127.0.0.1".data, 5000), "room://localhost:4242".data)]) := by
  decide

/-- C7 (amended): a directional movement with the neighbor resolved, sent
by a roster member whose display name has no hyphen and whose entry is the
first roster entry with the sender's port, removes exactly that entry,
broadcasts the leave notice to every other-port entry, and replies with
the neighbor's stored address string. -/
theorem move_present_removes (cfg : RoomSrv.Cfg) (st : RoomSrv.Room)
    (d : RoomSrv.Direction) (nr : Chars)
    (ros1 : List (RoomSrv.Addr × Chars)) (hH : Chars) (p : Nat) (n : Chars)
    (ros2 : List (RoomSrv.Addr × Chars))
    (hplayers : st.players =
      RoomSrv.rosterOf (ros1 ++ ((hH, p), n) :: ros2))
    (hwf : ∀ x ∈ ros1 ++ ((hH, p), n) :: ros2, RoomSrv.WFent x)
    (hports1 : ∀ x ∈ ros1, x.1.2 ≠ p)
    (hn2 : '-' ∉ n)
    (hd : RoomSrv.cfgDir cfg d = some nr) :
    RoomSrv.roomStep cfg st (RoomSrv.dirMsg d) (hH, p) =
      .ok (⟨st.name, st.desc, st.items, RoomSrv.rosterOf (ros1 ++ ros2)⟩,
        (((ros1 ++ ((hH, p), n) :: ros2).filter
            (fun x => x.1.2 != p)).map
          (fun x => ((RoomSrv.localhost, x.1.2), n ++ RoomSrv.dirTxt d)))
        ++ [(((hH, p) : RoomSrv.Addr), nr)]) := by
  obtain ⟨hc, hp, hn⟩ := hwf ((hH, p), n) (by simp)
  have hwf1 : ∀ x ∈ ros1, RoomSrv.WFent x := fun x hx => hwf x (by simp [hx])
  have hgpn := RoomSrv.gpn_first ros1 hH p n ros2 hwf1 hports1 hc hp hn hn2
  have hpay : RoomSrv.movePay
      (RoomSrv.rosterOf (ros1 ++ ((hH, p), n) :: ros2)) (.ok p)
      (RoomSrv.dirTxt d) = .ok (n ++ RoomSrv.dirTxt d) := by
    show RoomSrv.movePayGo _ p _ = _
    unfold RoomSrv.movePayGo
    rw [hgpn]
  have hfan := RoomSrv.fanout_map (ros1 ++ ((hH, p), n) :: ros2) p
    (n ++ RoomSrv.dirTxt d) hwf
  have hmem : RoomSrv.pyAddrStr hH p ++ '-' :: n ∈
      RoomSrv.rosterOf (ros1 ++ ((hH, p), n) :: ros2) := by
    show RoomSrv.mkPlayer (hH, p) n ∈ _
    exact List.mem_map_of_mem _
      (List.mem_append_right ros1 (List.mem_cons_self _ _))
  have hnotmem : RoomSrv.mkPlayer (hH, p) n ∉ RoomSrv.rosterOf ros1 :=
    RoomSrv.mkPlayer_not_mem ros1 hH p n hwf1 hports1 hc hp hn
  have hremove : RoomSrv.removeFirst
      (RoomSrv.rosterOf (ros1 ++ ((hH, p), n) :: ros2))
      (RoomSrv.pyAddrStr hH p ++ '-' :: n) =
      RoomSrv.rosterOf (ros1 ++ ros2) := by
    show RoomSrv.removeFirst _ (RoomSrv.mkPlayer (hH, p) n) = _
    rw [show RoomSrv.rosterOf (ros1 ++ ((hH, p), n) :: ros2) =
        RoomSrv.rosterOf ros1 ++
          RoomSrv.mkPlayer (hH, p) n :: RoomSrv.rosterOf ros2 by
        simp [RoomSrv.rosterOf],
      RoomSrv.removeFirst_append _ _ _ hnotmem]
    simp [RoomSrv.rosterOf]
  have htry : RoomSrv.tryRemove
      (RoomSrv.rosterOf (ros1 ++ ((hH, p), n) :: ros2)) (.ok p)
      (RoomSrv.pyAddrStr hH p) = .ok (RoomSrv.rosterOf (ros1 ++ ros2)) := by
    show RoomSrv.tryRemoveGo _ p _ = _
    unfold RoomSrv.tryRemoveGo
    rw [hgpn]
    simp [hmem, hremove]
  rw [roomStep_dirMsg cfg st (hH, p) d, hd]
  unfold RoomSrv.moveBranch
  rw [show (((hH, p) : RoomSrv.Addr)).1 = hH from rfl,
    show (((hH, p) : RoomSrv.Addr)).2 = p from rfl,
    hplayers, RoomSrv.parsedPort_ok hH p hc hp, hpay, hfan, htry]

theorem move_present_removes_witness :
    RoomSrv.roomStep ⟨some "room://localhost:4242".data, none, none, none,
        none, none⟩
      ⟨"start".data, "desc".data, [],
        RoomSrv.rosterOf [(("127.0.0.1".data, 5000), "bob".data),
          (("127.0.0.1".data, 6000), "ann".data)]⟩
      (RoomSrv.dirMsg .north) ("127.0.0.1".data, 5000) =
      .ok (⟨"start".data, "desc".data, [],
        RoomSrv.rosterOf [(("127.0.0.1".data, 6000), "ann".data)]⟩,
        [((RoomSrv.localhost, 6000),
          "bob".data ++ RoomSrv.dirTxt .north),
         (("127.0.0.1".data, 5000), "room://localhost:4242".data)]) :=
  (move_present_removes
    ⟨some "room://localhost:4242".data, none, none, none, none, none⟩
    ⟨"start".data, "desc".data, [],
      RoomSrv.rosterOf [(("127.0.0.1".data, 5000), "bob".data),
        (("127.0.0.1".data, 6000), "ann".data)]⟩
    .north "room://localhost:4242".data
    [] "127.0.0.1".data 5000 "bob".data
    [(("127.0.0.1".data, 6000), "ann".data)]
    rfl (by decide) (by decide) (by decide) (by decide)).trans (by decide)

/-- C8 counterexample: with a roster of two members whose entries share
the same port on different hosts, a `say` from one of them produces no
datagram at all — the other member's endpoint receives nothing — because
the loop skips every entry whose parsed port equals the sender's port. -/
theorem say_same_port_silent :
    RoomSrv.roomStep ⟨none, none, none, none, none, none⟩
      ⟨"hall".data, "big".data, [],
        [RoomSrv.mkPlayer ("127.0.0.1".data, 5000) "alice".data,
         RoomSrv.mkPlayer ("10.0.0.9".data, 5000) "bob".data]⟩
      "say hi".data ("127.0.0.1".data, 5000) =
      .ok (⟨"hall".data, "big".data, [],
        [RoomSrv.mkPlayer ("127.0.0.1".data, 5000) "alice".data,
         RoomSrv.mkPlayer ("10.0.0.9".data, 5000) "bob".data]⟩, []) := by
  decide

/-- C8 (amended): a `say <text>` from a roster member is sent exactly to
("127.0.0.1", q) for every roster entry whose parsed port q differs from
the sender's port, with the payload `<name> said "<text>".`, and no
datagram is ever addressed to the sender's endpoint; entries sharing the
sender's port receive nothing. -/
theorem say_broadcast_by_port (cfg : RoomSrv.Cfg) (st : RoomSrv.Room)
    (ros1 : List (RoomSrv.Addr × Chars)) (hH : Chars) (p : Nat) (n : Chars)
    (ros2 : List (RoomSrv.Addr × Chars)) (text : Chars)
    (hplayers : st.players =
      RoomSrv.rosterOf (ros1 ++ ((hH, p), n) :: ros2))
    (hwf : ∀ x ∈ ros1 ++ ((hH, p), n) :: ros2, RoomSrv.WFent x)
    (hports1 : ∀ x ∈ ros1, x.1.2 ≠ p)
    (hn2 : '-' ∉ n)
    (h1 : containsB "new_connection,".data text = false) :
    RoomSrv.roomStep cfg st ("say ".data ++ text) (hH, p) =
      .ok (st, ((ros1 ++ ((hH, p), n) :: ros2).filter
          (fun x => x.1.2 != p)).map
        (fun x => ((RoomSrv.localhost, x.1.2),
          n ++ " said \"".data ++
            List.intercalate [' '] (RoomSrv.pyWords text) ++
            "\".".data))) ∧
    ∀ o ∈ ((ros1 ++ ((hH, p), n) :: ros2).filter
          (fun x => x.1.2 != p)).map
        (fun x => ((RoomSrv.localhost, x.1.2),
          n ++ " said \"".data ++
            List.intercalate [' '] (RoomSrv.pyWords text) ++
            "\".".data)),
      o.1 ≠ ((hH, p) : RoomSrv.Addr) := by
  obtain ⟨hc, hp, hn⟩ := hwf ((hH, p), n) (by simp)
  have hwf1 : ∀ x ∈ ros1, RoomSrv.WFent x := fun x hx => hwf x (by simp [hx])
  have hgpn := RoomSrv.gpn_first ros1 hH p n ros2 hwf1 hports1 hc hp hn hn2
  have hA : containsB "new_connection,".data ("say ".data ++ text) = false :=
    RoomSrv.not_contains_verb_arg _ "say ".data text (by decide)
      (by decide) h1
  have hB : containsB "say".data ("say ".data ++ text) = true :=
    containsB_of_pre _ _ ⟨' ' :: text, rfl⟩
  have hw : RoomSrv.pyWords ("say ".data ++ text) =
      "say".data :: RoomSrv.pyWords text := by
    unfold RoomSrv.pyWords
    rw [show ("say ".data ++ text : Chars) = "say".data ++ ' ' :: text
        from rfl,
      splitOnP_tok wsB "say".data ' ' text (by decide) (by decide)]
    simp [List.filter_cons]
  have hpay : RoomSrv.sayPay
      (RoomSrv.rosterOf (ros1 ++ ((hH, p), n) :: ros2)) (.ok p)
      ("say ".data ++ text) =
      .ok (n ++ " said \"".data ++
        List.intercalate [' '] (RoomSrv.pyWords text) ++ "\".".data) := by
    unfold RoomSrv.sayPay
    rw [hw]
    show RoomSrv.sayPayGo _ p (RoomSrv.pyWords text) = _
    unfold RoomSrv.sayPayGo
    rw [hgpn]
  have hfan := RoomSrv.fanout_map (ros1 ++ ((hH, p), n) :: ros2) p
    (n ++ " said \"".data ++
      List.intercalate [' '] (RoomSrv.pyWords text) ++ "\".".data) hwf
  constructor
  · unfold RoomSrv.roomStep
    rw [hA, if_neg (show ¬ (false = true) by decide), hB, if_pos rfl,
      hplayers, RoomSrv.parsedPort_ok hH p hc hp, hpay, hfan]
  · intro o hm
    rw [List.mem_map] at hm
    obtain ⟨x, hx, rfl⟩ := hm
    rw [List.mem_filter] at hx
    intro heq
    have h3 := congrArg Prod.snd heq
    exact bne_iff_ne.1 hx.2 h3

theorem say_broadcast_by_port_witness :
    RoomSrv.roomStep ⟨none, none, none, none, none, none⟩
      ⟨"hall".data, "big".data, [],
        RoomSrv.rosterOf [(("127.0.0.1".data, 5000), "alice".data),
          (("127.0.0.1".data, 6000), "carol".data)]⟩
      ("say ".data ++ "hi there".data) ("127.0.0.1".data, 5000) =
      .ok (⟨"hall".data, "big".data, [],
        RoomSrv.rosterOf [(("127.0.0.1".data, 5000), "alice".data),
          (("127.0.0.1".data, 6000), "carol".data)]⟩,
        [((RoomSrv.localhost, 6000),
          "alice said \"hi there\".".data)]) :=
  ((say_broadcast_by_port ⟨none, none, none, none, none, none⟩
    ⟨"hall".data, "big".data, [],
      RoomSrv.rosterOf [(("127.0.0.1".data, 5000), "alice".data),
        (("127.0.0.1".data, 6000), "carol".data)]⟩
    [] "127.0.0.1".data 5000 "alice".data
    [(("127.0.0.1".data, 6000), "carol".data)] "hi there".data
    rfl (by decide) (by decide) (by decide) (by decide)).1).trans
    (by decide)

end SCG
